import Mathlib

/-!
Verification of the tiles-of-interest ETL pipeline.

Shallow embedding of:
* `scripts/yanroy/build_tiles_of_interest_from_facts.py`
* `projects/shared/scripts/yanroy/build_tiles_of_interest.py`
* `projects/shared/scripts/yanroy/build_vector_tiles_with_tippecanoe.py`

Python strings are modelled as Lean `String`; Python character classes
(`isdigit`, `isalpha`, case mapping) are modelled on the ASCII range the
pipeline's data uses; Python floats are modelled as rationals (the pipeline
only parses finite decimal literals and compares them); external collaborators
(geopandas/shapely) are modelled by an abstract geometry engine record.
-/

/-! ## Python string primitives -/

/-- The ASCII lowercase letters, in order. -/
def asciiLower : List Char :=
  ['a', 'b', 'c', 'd', 'e', 'f', 'g', 'h', 'i', 'j', 'k', 'l', 'm',
   'n', 'o', 'p', 'q', 'r', 's', 't', 'u', 'v', 'w', 'x', 'y', 'z']

/-- The ASCII uppercase letters, in order. -/
def asciiUpper : List Char :=
  ['A', 'B', 'C', 'D', 'E', 'F', 'G', 'H', 'I', 'J', 'K', 'L', 'M',
   'N', 'O', 'P', 'Q', 'R', 'S', 'T', 'U', 'V', 'W', 'X', 'Y', 'Z']

/-- The ASCII digits, in order. -/
def asciiDigits : List Char :=
  ['0', '1', '2', '3', '4', '5', '6', '7', '8', '9']

/-- Index of the first occurrence of `a`, if any. -/
def listIndexOf? [DecidableEq α] (a : α) : List α → Option Nat
  | [] => none
  | x :: xs => if x = a then some 0 else (listIndexOf? a xs).map Nat.succ

/-- Models Python `str.isdigit` (on the ASCII inputs this pipeline handles). -/
def pyIsDigit (c : Char) : Bool := decide (c ∈ asciiDigits)

/-- Models Python `str.isalpha` (on the ASCII inputs this pipeline handles). -/
def pyIsAlpha (c : Char) : Bool := decide (c ∈ asciiLower ∨ c ∈ asciiUpper)

/-- True exactly on ASCII uppercase letters. -/
def pyIsUpper (c : Char) : Bool := decide (c ∈ asciiUpper)

/-- Models Python `str.upper` on one character (ASCII). -/
def pyToUpper (c : Char) : Char :=
  match listIndexOf? c asciiLower with
  | some i => asciiUpper.getD i c
  | none => c

/-- Models Python `str.lower` on one character (ASCII). -/
def pyToLower (c : Char) : Char :=
  match listIndexOf? c asciiUpper with
  | some i => asciiLower.getD i c
  | none => c

/-- Python whitespace characters stripped by `str.strip()` (ASCII range). -/
def pyWs (c : Char) : Bool :=
  decide (c ∈ [' ', '\t', '\n', '\r', '\x0b', '\x0c'])

/-- Models Python `str.strip()`. -/
def pyStrip (s : String) : String :=
  ⟨((s.data.dropWhile pyWs).reverse.dropWhile pyWs).reverse⟩

/-- Models Python `str.upper()`. -/
def pyUpper (s : String) : String := ⟨s.data.map pyToUpper⟩

/-- Models Python `str.lower()`. -/
def pyLower (s : String) : String := ⟨s.data.map pyToLower⟩

/-- Models Python `str.zfill(w)`: left-pad with zeros to width `w`,
keeping a leading sign in front of the padding. -/
def pyZfill (w : Nat) (s : String) : String :=
  if w ≤ s.length then s
  else
    match s.data with
    | [] => ⟨List.replicate w '0'⟩
    | c :: rest =>
      if c = '+' ∨ c = '-' then
        ⟨c :: (List.replicate (w - s.length) '0' ++ rest)⟩
      else
        ⟨List.replicate (w - s.length) '0' ++ (c :: rest)⟩

/-- `"".join(ch for ch in val if ch.isdigit())` -/
def digitsOf (s : String) : String := ⟨s.data.filter pyIsDigit⟩

/-- `"".join(ch for ch in val if ch.isalpha()).upper()` -/
def alphaUpperOf (s : String) : String :=
  ⟨(s.data.filter pyIsAlpha).map pyToUpper⟩

/-- Models `_norm` (identical in both builder scripts):
`str(s or "").strip().lower().replace(" ", "").replace("_", "")`. -/
def normKey (s : String) : String :=
  ⟨(((pyStrip s).data.map pyToLower).filter fun c => decide (c ≠ ' ' ∧ c ≠ '_'))⟩

/-! ## Numeric parsing (`float(...)` over finite decimal literals) -/

/-- Numeric value of an ASCII digit. -/
def digitVal (c : Char) : Nat := (listIndexOf? c asciiDigits).getD 0

/-- Value of a digit string, most significant first. -/
def natOfDigits (l : List Char) : Nat := l.foldl (fun n c => 10 * n + digitVal c) 0

/-- Models Python `float(text)` on finite decimal literals
(`[sign] (digits [. digits] | . digits) [e [sign] digits]`, surrounding
whitespace allowed), returning an exact rational.  Non-finite inputs
(`nan`, `inf`) and underscore separators are outside the model and parse to
`none`; the bounds fields this pipeline reads never contain them. -/
def pyParseFloat? (s0 : String) : Option ℚ :=
  let cs0 := (pyStrip s0).data
  let (sign, cs1) : ℚ × List Char :=
    match cs0 with
    | '+' :: r => (1, r)
    | '-' :: r => (-1, r)
    | _ => (1, cs0)
  let intPart := cs1.takeWhile pyIsDigit
  let cs2 := cs1.dropWhile pyIsDigit
  let (fracPart, cs3) : List Char × List Char :=
    match cs2 with
    | '.' :: r => (r.takeWhile pyIsDigit, r.dropWhile pyIsDigit)
    | _ => ([], cs2)
  if intPart = [] ∧ fracPart = [] then none
  else
    let mant : ℚ :=
      (natOfDigits intPart : ℚ) + (natOfDigits fracPart : ℚ) / ((10 : ℚ) ^ fracPart.length)
    match cs3 with
    | [] => some (sign * mant)
    | 'e' :: r =>
      let (esign, r2) : Int × List Char :=
        match r with
        | '+' :: r2 => (1, r2)
        | '-' :: r2 => (-1, r2)
        | _ => (1, r)
      let eds := r2.takeWhile pyIsDigit
      let rest := r2.dropWhile pyIsDigit
      if eds = [] ∨ rest ≠ [] then none
      else some (sign * mant * (10 : ℚ) ^ (esign * (natOfDigits eds : Int)))
    | 'E' :: r =>
      let (esign, r2) : Int × List Char :=
        match r with
        | '+' :: r2 => (1, r2)
        | '-' :: r2 => (-1, r2)
        | _ => (1, r)
      let eds := r2.takeWhile pyIsDigit
      let rest := r2.dropWhile pyIsDigit
      if eds = [] ∨ rest ≠ [] then none
      else some (sign * mant * (10 : ℚ) ^ (esign * (natOfDigits eds : Int)))
    | _ => none

/-- A parsed bounding box, `minx,miny,maxx,maxy`. -/
structure Bounds where
  minx : ℚ
  miny : ℚ
  maxx : ℚ
  maxy : ℚ
deriving DecidableEq

/-- Models `_parse_bounds` of `build_tiles_of_interest_from_facts.py`
(lines 89-102): strip, split on commas into exactly four floats, and require
`maxx > minx` and `maxy > miny`. -/
def pyParseBounds (text : String) : Option Bounds :=
  let raw := pyStrip text
  if raw = "" then none
  else
    match (raw.splitOn ",").map pyStrip with
    | [a, b, c, d] =>
      match pyParseFloat? a, pyParseFloat? b, pyParseFloat? c, pyParseFloat? d with
      | some minx, some miny, some maxx, some maxy =>
        if maxx > minx ∧ maxy > miny then some ⟨minx, miny, maxx, maxy⟩ else none
      | _, _, _, _ => none
    | _ => none

/-! ## Tile identifiers (`_TILE_RE`, `_parse_hv`, `_normalize_tile_id`) -/

/-- Does the char list start with a `hDDvDD` token (case-insensitive)?
If so return those six characters.  Models one anchor position of the
regex `(?i)(h\d{2}v\d{2})`. -/
def isTileStart (cs : List Char) : Option (List Char) :=
  match cs with
  | c0 :: c1 :: c2 :: c3 :: c4 :: c5 :: _ =>
    if (c0 = 'h' ∨ c0 = 'H') ∧ pyIsDigit c1 ∧ pyIsDigit c2 ∧
       (c3 = 'v' ∨ c3 = 'V') ∧ pyIsDigit c4 ∧ pyIsDigit c5
    then some [c0, c1, c2, c3, c4, c5] else none
  | _ => none

/-- Leftmost `hDDvDD` token of a char list, if any. -/
def findTileTokenAux : List Char → Option (List Char)
  | [] => none
  | c :: rest =>
    match isTileStart (c :: rest) with
    | some t => some t
    | none => findTileTokenAux rest

/-- Models `_TILE_RE.search(s)`: the leftmost `hDDvDD` token (original case). -/
def findTileToken (s : String) : Option String :=
  (findTileTokenAux s.data).map fun l => ⟨l⟩

/-- Numeric value of two ASCII digits. -/
def twoDigitNat (a b : Char) : Nat := 10 * digitVal a + digitVal b

/-- Models `_parse_hv` (lines 105-113): search the tile-id for a `hDDvDD`
token and read its two 2-digit integers; `(None, None)` when absent. -/
def parseHv (tileId : String) : Option Int × Option Int :=
  match findTileToken tileId with
  | none => (none, none)
  | some t =>
    match t.data with
    | [_, c1, c2, _, c4, c5] =>
      (some (twoDigitNat c1 c2 : Int), some (twoDigitNat c4 c5 : Int))
    | _ => (none, none)

/-- Components of a POSIX path after pathlib's normalization
(empty and `.` components dropped). -/
def pathComponents (s : String) : List String :=
  (s.splitOn "/").filter fun c => decide (c ≠ "" ∧ c ≠ ".")

/-- Models `pathlib.PurePosixPath(s).name`: the last normalized component. -/
def pathName (s : String) : String := (pathComponents s).getLast?.getD ""

/-- Index of the last `'.'` in a char list, if any (Python `str.rfind`). -/
def rfindDot (cs : List Char) : Option Nat :=
  ((List.range cs.length).filter fun i => decide (cs.getD i ' ' = '.')).getLast?

/-- Models `pathlib.PurePosixPath(name).stem` for a single component:
split off the suffix at the last dot when that dot is neither leading nor
trailing. -/
def pathStem (name : String) : String :=
  let cs := name.data
  match rfindDot cs with
  | some i => if 0 < i ∧ i < cs.length - 1 then ⟨cs.take i⟩ else name
  | none => name

/-- Models `_normalize_tile_id` (lines 116-126): lowercased `hDDvDD` token if
present, else a lowercased file-stem-derived identifier. -/
def normalizeTileId (relativePath : String) : String :=
  let rel := pyStrip relativePath
  if rel = "" then ""
  else
    match findTileToken rel with
    | some t => pyLower t
    | none =>
      let name := pathName rel
      let stem := if name ≠ "" then pathStem name else rel
      pyLower (pyStrip (if stem ≠ "" then stem else rel))

/-! ## Error conditions

The scripts raise `ValueError`/`RuntimeError` with distinct messages; each
constructor below models one raise site. -/

/-- Terminal error conditions of the builders, one constructor per raise
site. -/
inductive BuildError where
  /-- `"states csv did not yield any state codes"` (both readers). -/
  | noCodes
  /-- `"states csv has no header"` / `"raster_facts csv has no header"`. -/
  | noHeader
  /-- `"no usable raster footprints (relative_path+bounds+crs) found in raster_facts csv"`. -/
  | noFootprints
  /-- `"state shapefile has no features: ..."`. -/
  | emptyShapefile
  /-- `"state shapefile missing STATEFP and STUSPS columns"`. -/
  | missingColumns
  /-- `"requested states not found in state shapefile: ..."`, carrying the
  sorted missing FIPS codes and sorted missing abbreviations that the
  message lists. -/
  | statesNotFound (missingFips missingAbbr : List String)
  /-- `"no matching state columns found for provided codes"`. -/
  | noMaskColumns
  /-- `"no states matched states.of.interest.csv"`. -/
  | noMatch
  /-- `"state shapefile missing CRS"`. -/
  | missingCrs
  /-- `"no raster_facts footprints intersect selected states"` /
  `"no MODIS tiles intersect selected states"`. -/
  | noIntersection
deriving DecidableEq

/-! ## Region readers (`_read_state_codes`, both variants) -/

/-- Synonyms recognised for the FIPS-like column. -/
def fipsKeys : List String := ["statefp", "statefips", "fips", "statecode", "stfips"]

/-- Synonyms recognised for the abbreviation-like column. -/
def abbrKeys : List String := ["stusps", "state", "stateabbr", "stateabbrev", "statepostal"]

/-- One headered cell of the shared reader
(`build_tiles_of_interest.py` lines 30-43): lenient — any non-empty digit
run goes to FIPS (zero-padded), any non-empty alpha run goes to the
abbreviations. -/
def addHeaderedCellShared (acc : Finset String × Finset String) (kv : String × String) :
    Finset String × Finset String :=
  let key := normKey kv.1
  let val := pyStrip kv.2
  if val = "" then acc
  else
    let acc1 :=
      if key ∈ fipsKeys then
        let vv := digitsOf val
        if vv ≠ "" then (insert (pyZfill 2 vv) acc.1, acc.2) else acc
      else acc
    if key ∈ abbrKeys then
      let ab := alphaUpperOf val
      if ab ≠ "" then (acc1.1, insert ab acc1.2) else acc1
    else acc1

/-- One headered cell of the facts reader
(`build_tiles_of_interest_from_facts.py` lines 48-61): like the shared
reader for FIPS, but an abbreviation is accepted only when exactly two
letters remain. -/
def addHeaderedCellFacts (acc : Finset String × Finset String) (kv : String × String) :
    Finset String × Finset String :=
  let key := normKey kv.1
  let val := pyStrip kv.2
  if val = "" then acc
  else
    let acc1 :=
      if key ∈ fipsKeys then
        let vv := digitsOf val
        if vv ≠ "" then (insert (pyZfill 2 vv) acc.1, acc.2) else acc
      else acc
    if key ∈ abbrKeys then
      let ab := alphaUpperOf val
      if ab.length = 2 then (acc1.1, insert ab acc1.2) else acc1
    else acc1

/-- Models `_parse_state_token` (facts script, lines 17-27): strict —
1-2 digits make a zero-padded FIPS, else exactly 2 letters make an
abbreviation, else nothing. -/
def parseStateToken (raw : String) : String × String :=
  let val := pyStrip raw
  if val = "" then ("", "")
  else
    let digits := digitsOf val
    if digits.length = 1 ∨ digits.length = 2 then (pyZfill 2 digits, "")
    else
      let alpha := alphaUpperOf val
      if alpha.length = 2 then ("", alpha) else ("", "")

/-- Models `_read_state_codes` of `build_tiles_of_interest.py` (lines 23-46).
`hasHeader` models `rdr.fieldnames` being non-empty (the CSV has a first
line); each row is the `row.items()` list of a `csv.DictReader` row. -/
def stateCodesAccShared (rows : List (List (String × String))) :
    Finset String × Finset String :=
  rows.foldl (fun a row => row.foldl addHeaderedCellShared a) (∅, ∅)

def readStateCodesShared (hasHeader : Bool) (rows : List (List (String × String))) :
    Except BuildError (Finset String × Finset String) :=
  if ¬ hasHeader then .error .noHeader
  else
    if (stateCodesAccShared rows).1 = ∅ ∧ (stateCodesAccShared rows).2 = ∅ then
      .error .noCodes
    else .ok (stateCodesAccShared rows)

/-- The states CSV as seen by the facts reader after `csv.Sniffer` header
detection (the sniffer itself is an external collaborator): either a
headered table of `row.items()` lists or plain rows of raw tokens. -/
inductive StatesCsv where
  | headered (rows : List (List (String × String)))
  | plain (rows : List (List String))

/-- One plain-token cell of the facts reader's headerless branch
(lines 63-70). -/
def addPlainCellFacts (a : Finset String × Finset String) (raw : String) :
    Finset String × Finset String :=
  let t := parseStateToken raw
  let a1 := if t.1 ≠ "" then (insert t.1 a.1, a.2) else a
  if t.2 ≠ "" then (a1.1, insert t.2 a1.2) else a1

def stateCodesAccFacts (states : StatesCsv) : Finset String × Finset String :=
  match states with
  | .headered rows => rows.foldl (fun a row => row.foldl addHeaderedCellFacts a) (∅, ∅)
  | .plain rows => rows.foldl (fun a row => row.foldl addPlainCellFacts a) (∅, ∅)

/-- Models `_read_state_codes` of `build_tiles_of_interest_from_facts.py`
(lines 30-74). -/
def readStateCodesFacts (states : StatesCsv) : Except BuildError (Finset String × Finset String) :=
  if (stateCodesAccFacts states).1 = ∅ ∧ (stateCodesAccFacts states).2 = ∅ then
    .error .noCodes
  else .ok (stateCodesAccFacts states)

/-! ## Raster footprints (`_read_raster_footprints_from_facts`) -/

/-- One raster-facts CSV row as produced by `csv.DictReader`; a missing or
`None` cell is the empty string (the script applies `or ""` before use). -/
structure FactsRow where
  relative_path : String
  bounds : String
  crs : String
deriving DecidableEq

/-- One usable tile footprint (the dict stored in `by_tile`). -/
structure Footprint where
  tile_id : String
  h : Option Int
  v : Option Int
  crs : String
  minx : ℚ
  miny : ℚ
  maxx : ℚ
  maxy : ℚ
deriving DecidableEq

/-- The per-row body of `_read_raster_footprints_from_facts` (lines 136-150):
`none` exactly when the row is skipped by one of the `continue`s before the
duplicate check, otherwise the footprint dict the row would contribute. -/
def fpOfRow? (row : FactsRow) : Option Footprint :=
  let rel := pyStrip row.relative_path
  if rel = "" then none
  else
    match pyParseBounds row.bounds with
    | none => none
    | some b =>
      let crsText := pyStrip row.crs
      if crsText = "" then none
      else
        let tileId := normalizeTileId rel
        if tileId = "" then none
        else
          let hv := parseHv tileId
          some ⟨tileId, hv.1, hv.2, crsText, b.minx, b.miny, b.maxx, b.maxy⟩

/-- Generic first-seen-wins accumulation loop: translate each input with `f`
(`none` = skipped row), and append the result unless a previously kept value
shares its key.  This is the shape of the `by_tile` dict loop and of both
builders' `seen`-set dedup loops: a Python dict/set keyed by `key` with
insertion-order output. -/
def firstsLoop (f : α → Option β) (key : β → κ) [DecidableEq κ] :
    List α → List β → List β
  | [], acc => acc
  | x :: xs, acc =>
    match f x with
    | none => firstsLoop f key xs acc
    | some b =>
      if key b ∈ acc.map key then firstsLoop f key xs acc
      else firstsLoop f key xs (acc ++ [b])

/-- Models `_read_raster_footprints_from_facts` (lines 129-168).
`hasHeader` models `rdr.fieldnames` being non-`None`. -/
def readRasterFootprints (hasHeader : Bool) (rows : List FactsRow) :
    Except BuildError (List Footprint) :=
  if ¬ hasHeader then .error .noHeader
  else
    if firstsLoop fpOfRow? (fun fp => fp.tile_id) rows [] = [] then .error .noFootprints
    else .ok (firstsLoop fpOfRow? (fun fp => fp.tile_id) rows [])

/-! ## Declarative first-occurrence filter and the loop characterization -/

/-- Keep the first element for each key, in order: the declarative
specification of first-seen-wins deduplication. -/
def keepFirstsBy (key : β → κ) [DecidableEq κ] : List β → List β
  | [] => []
  | x :: xs => x :: keepFirstsBy key (xs.filter fun y => decide (key y ≠ key x))
termination_by l => l.length
decreasing_by
  simp only [List.length_cons]
  exact Nat.lt_succ_of_le (List.length_filter_le _ _)

theorem keepFirstsBy_nil (key : β → κ) [DecidableEq κ] :
    keepFirstsBy key ([] : List β) = [] := by
  rw [keepFirstsBy]

theorem keepFirstsBy_cons (key : β → κ) [DecidableEq κ] (x : β) (xs : List β) :
    keepFirstsBy key (x :: xs) =
      x :: keepFirstsBy key (xs.filter fun y => decide (key y ≠ key x)) := by
  rw [keepFirstsBy]

theorem keepFirstsBy_ne_nil (key : β → κ) [DecidableEq κ] (l : List β) :
    keepFirstsBy key l = [] ↔ l = [] := by
  cases l with
  | nil => simp [keepFirstsBy_nil]
  | cons x xs => simp [keepFirstsBy_cons]

/-- Every kept element occurs in the input list. -/
theorem mem_of_mem_keepFirstsBy_aux (key : β → κ) [DecidableEq κ] :
    ∀ (n : Nat) (l : List β), l.length ≤ n → ∀ b ∈ keepFirstsBy key l, b ∈ l := by
  intro n
  induction n with
  | zero =>
    intro l hl b hb
    match l with
    | [] => simp [keepFirstsBy_nil] at hb
    | x :: xs => simp at hl
  | succ n ih =>
    intro l hl b hb
    match l with
    | [] => simp [keepFirstsBy_nil] at hb
    | x :: xs =>
      rw [keepFirstsBy_cons] at hb
      rcases List.mem_cons.mp hb with h | h
      · exact h ▸ List.mem_cons_self _ _
      · have hxs : xs.length ≤ n := by
          simpa using Nat.succ_le_succ_iff.mp (by simpa using hl)
        have hfl : (xs.filter fun y => decide (key y ≠ key x)).length ≤ n :=
          le_trans (List.length_filter_le _ _) hxs
        have hmem := ih _ hfl b h
        exact List.mem_cons.mpr (Or.inr (List.mem_of_mem_filter hmem))

theorem mem_of_mem_keepFirstsBy (key : β → κ) [DecidableEq κ] {l : List β}
    {b : β} (hb : b ∈ keepFirstsBy key l) : b ∈ l :=
  mem_of_mem_keepFirstsBy_aux key l.length l (le_refl _) b hb

/-- The kept elements have pairwise distinct keys. -/
theorem nodup_keys_keepFirstsBy_aux (key : β → κ) [DecidableEq κ] :
    ∀ (n : Nat) (l : List β), l.length ≤ n → ((keepFirstsBy key l).map key).Nodup := by
  intro n
  induction n with
  | zero =>
    intro l hl
    match l with
    | [] => simp [keepFirstsBy_nil]
    | x :: xs => simp at hl
  | succ n ih =>
    intro l hl
    match l with
    | [] => simp [keepFirstsBy_nil]
    | x :: xs =>
      rw [keepFirstsBy_cons]
      have hxs : xs.length ≤ n := by
        simpa using Nat.succ_le_succ_iff.mp (by simpa using hl)
      have hfl : (xs.filter fun y => decide (key y ≠ key x)).length ≤ n :=
        le_trans (List.length_filter_le _ _) hxs
      simp only [List.map_cons, List.nodup_cons]
      refine ⟨?_, ih _ hfl⟩
      intro hk
      rcases List.mem_map.mp hk with ⟨b, hb, hkb⟩
      have hbmem := mem_of_mem_keepFirstsBy key hb
      have := List.of_mem_filter hbmem
      simp only [decide_eq_true_eq] at this
      exact this hkb

theorem nodup_keys_keepFirstsBy (key : β → κ) [DecidableEq κ] (l : List β) :
    ((keepFirstsBy key l).map key).Nodup :=
  nodup_keys_keepFirstsBy_aux key l.length l (le_refl _)

/-- Dropping elements that cannot satisfy the search predicate does not
change the first hit. -/
theorem find?_filter_of_imp (p q : α → Bool) (h : ∀ a, p a = true → q a = true) :
    ∀ l : List α, (l.filter q).find? p = l.find? p := by
  intro l
  induction l with
  | nil => rfl
  | cons x xs ih =>
    by_cases hp : p x = true
    · have hq := h x hp
      rw [List.filter_cons_of_pos hq, List.find?_cons_of_pos _ hp,
        List.find?_cons_of_pos _ hp]
    · by_cases hq : q x = true
      · rw [List.filter_cons_of_pos hq, List.find?_cons_of_neg _ (by simpa using hp),
          List.find?_cons_of_neg _ (by simpa using hp)]
        exact ih
      · rw [List.filter_cons_of_neg (by simpa using hq),
          List.find?_cons_of_neg _ (by simpa using hp)]
        exact ih

/-- Every kept element is the first element of the input list carrying its
key: first occurrence wins. -/
theorem find?_keepFirstsBy_aux (key : β → κ) [DecidableEq κ] :
    ∀ (n : Nat) (l : List β), l.length ≤ n → ∀ b ∈ keepFirstsBy key l,
      l.find? (fun a => decide (key a = key b)) = some b := by
  intro n
  induction n with
  | zero =>
    intro l hl b hb
    match l with
    | [] => simp [keepFirstsBy_nil] at hb
    | x :: xs => simp at hl
  | succ n ih =>
    intro l hl b hb
    match l with
    | [] => simp [keepFirstsBy_nil] at hb
    | x :: xs =>
      rw [keepFirstsBy_cons] at hb
      have hxs : xs.length ≤ n := by
        simpa using Nat.succ_le_succ_iff.mp (by simpa using hl)
      have hfl : (xs.filter fun y => decide (key y ≠ key x)).length ≤ n :=
        le_trans (List.length_filter_le _ _) hxs
      rcases List.mem_cons.mp hb with h | h
      · subst h
        exact List.find?_cons_of_pos _ (by simp)
      · have hbmem : b ∈ xs.filter fun y => decide (key y ≠ key x) :=
          mem_of_mem_keepFirstsBy key h
        have hbk : key b ≠ key x := by
          have := List.of_mem_filter hbmem
          simpa using this
        rw [List.find?_cons_of_neg _ (by simpa using fun hkx => hbk hkx.symm)]
        have := ih _ hfl b h
        rw [find?_filter_of_imp (fun a => decide (key a = key b))
          (fun y => decide (key y ≠ key x)) ?_ xs] at this
        · exact this
        · intro a ha
          simp only [decide_eq_true_eq] at ha ⊢
          rw [ha]
          exact hbk

theorem find?_keepFirstsBy (key : β → κ) [DecidableEq κ] {l : List β} {b : β}
    (hb : b ∈ keepFirstsBy key l) :
    l.find? (fun a => decide (key a = key b)) = some b :=
  find?_keepFirstsBy_aux key l.length l (le_refl _) b hb

/-- The accumulation loop computes exactly the first-occurrence filter of the
translated inputs (relative to keys already in the accumulator). -/
theorem firstsLoop_eq (f : α → Option β) (key : β → κ) [DecidableEq κ] :
    ∀ (xs : List α) (acc : List β),
      firstsLoop f key xs acc =
        acc ++ keepFirstsBy key
          ((xs.filterMap f).filter fun b => decide (key b ∉ acc.map key)) := by
  intro xs
  induction xs with
  | nil => intro acc; simp [firstsLoop, keepFirstsBy_nil]
  | cons x xs ih =>
    intro acc
    cases hf : f x with
    | none =>
      simp only [firstsLoop, hf, List.filterMap_cons]
      exact ih acc
    | some b =>
      by_cases hmem : key b ∈ acc.map key
      · simp only [firstsLoop, hf, if_pos hmem, List.filterMap_cons]
        rw [List.filter_cons_of_neg (by simpa using hmem)]
        exact ih acc
      · simp only [firstsLoop, hf, if_neg hmem, List.filterMap_cons]
        rw [ih (acc ++ [b])]
        rw [List.filter_cons_of_pos (by simpa using hmem), keepFirstsBy_cons]
        have hpred : ∀ c : β,
            (decide (key c ∉ (acc ++ [b]).map key)) =
              ((decide (key c ≠ key b)) && decide (key c ∉ acc.map key)) := by
          intro c
          simp only [List.map_append, List.map_cons, List.map_nil, List.mem_append,
            List.mem_singleton]
          by_cases h1 : key c ∈ acc.map key <;> by_cases h2 : key c = key b <;>
            simp [h1, h2]
        have hfilters :
            (xs.filterMap f).filter (fun c => decide (key c ∉ (acc ++ [b]).map key)) =
              ((xs.filterMap f).filter fun c => decide (key c ∉ acc.map key)).filter
                fun c => decide (key c ≠ key b) := by
          rw [List.filter_filter]
          exact List.filter_congr fun c _ => hpred c
        rw [hfilters]
        simp

/-! ## Abstract geometry engine (geopandas/shapely collaborator) -/

/-- Operations of the external vector-geometry engine used by the builders.
`toCrs` reprojects one geometry between named CRSs (`none` models a
missing/NA geometry after transform, dropped by the `notna` filter);
`makeValid` is `make_valid` (with the `buffer(0)` fallback folded in);
`isEmptyG` is `geometry.is_empty`; `buffer` is `geometry.buffer(d)`;
`box` is `shapely.geometry.box`; `intersectsG` is the `sjoin`
`intersects` predicate. -/
structure GeomEngine (G : Type) where
  toCrs : String → String → G → Option G
  makeValid : G → G
  isEmptyG : G → Bool
  buffer : ℚ → G → G
  box : ℚ → ℚ → ℚ → ℚ → G
  intersectsG : G → G → Bool

/-- One feature of the state boundary source.  The `statefp`/`stusps`
values are meaningful only when the table-level column flags of
`StateShp` say the column exists. -/
structure StateRow (G : Type) where
  statefp : String
  stusps : String
  geom : G
deriving DecidableEq

/-- The loaded state boundary source (`gpd.read_file` result): column
presence flags, optional CRS, and the feature rows. -/
structure StateShp (G : Type) where
  hasStatefp : Bool
  hasStusps : Bool
  crs : Option String
  rows : List (StateRow G)

/-- One tile row of the right-hand sjoin table. -/
structure TileRow (G : Type) where
  tile_id : String
  h : Option Int
  v : Option Int
  geom : G
deriving DecidableEq

/-- One row of the joined (matched) table: state attributes (present iff
the corresponding column exists) plus tile attributes. -/
structure JRow where
  statefp : Option String
  stusps : Option String
  tile_id : String
  h : Option Int
  v : Option Int
deriving DecidableEq

/-- One normalized output row of `tiles.of.interest.csv`
(`h`/`v` are `none` when the CSV field is blank). -/
structure OutRow where
  statefp : String
  stusps : String
  tile_id : String
  h : Option Int
  v : Option Int
deriving DecidableEq

/-! ## Region selection and the missing-codes check -/

/-- `set(gdf["STATEFP"].astype(str).str.zfill(2))`. -/
def knownFipsOf {G : Type} (shp : StateShp G) : Finset String :=
  (shp.rows.map fun r => pyZfill 2 r.statefp).toFinset

/-- `set(gdf["STUSPS"].astype(str).str.upper())`. -/
def knownAbbrOf {G : Type} (shp : StateShp G) : Finset String :=
  (shp.rows.map fun r => pyUpper r.stusps).toFinset

/-- `sorted(...)` of a Python set of strings. -/
def sortedStrings (s : Finset String) : List String := s.sort (· ≤ ·)

/-- Whether the selection mask of lines 219-225 (79-85 in the shared
script) has at least one applicable column/codes branch (`mask is not
None`). -/
def maskApplicable {G : Type} (shp : StateShp G) (fips abbr : Finset String) : Bool :=
  (shp.hasStatefp && decide (fips ≠ ∅)) || (shp.hasStusps && decide (abbr ≠ ∅))

/-- The per-row boolean selection mask: OR of the applicable column
branches. -/
def rowSelected {G : Type} (shp : StateShp G) (fips abbr : Finset String)
    (r : StateRow G) : Bool :=
  (shp.hasStatefp && decide (fips ≠ ∅) && decide (pyZfill 2 r.statefp ∈ fips)) ||
  (shp.hasStusps && decide (abbr ≠ ∅) && decide (pyUpper r.stusps ∈ abbr))

/-! ## The per-CRS-group intersection step (facts builder, lines 242-274) -/

/-- Lines 243-244: reproject the selected regions into the tile group's
CRS and drop rows whose geometry is missing after transform (`notna`). -/
def projectRegions {G : Type} (e : GeomEngine G) (srcCrs dstCrs : String)
    (rows : List (StateRow G)) : List (StateRow G) :=
  rows.filterMap fun r => (e.toCrs srcCrs dstCrs r.geom).map fun g => { r with geom := g }

/-- Lines 245-249: repair invalid geometries and drop still-empty results. -/
def repairRegions {G : Type} (e : GeomEngine G) (rows : List (StateRow G)) :
    List (StateRow G) :=
  (rows.map fun r => { r with geom := e.makeValid r.geom }).filter
    fun r => ! e.isEmptyG r.geom

/-- Lines 252-255: grow region geometries by the touch buffer, applied only
when the tolerance is strictly positive. -/
def bufferRegions {G : Type} (e : GeomEngine G) (tol : ℚ) (rows : List (StateRow G)) :
    List (StateRow G) :=
  if 0 < tol then rows.map fun r => { r with geom := e.buffer tol r.geom } else rows

/-- Lines 256-266: the tile-side sjoin table, one box per footprint. -/
def tileRowsOf {G : Type} (e : GeomEngine G) (fps : List Footprint) : List (TileRow G) :=
  fps.map fun fp => ⟨fp.tile_id, fp.h, fp.v, e.box fp.minx fp.miny fp.maxx fp.maxy⟩

/-- Lines 267-272 (101-106 in the shared script): inner spatial join on the
`intersects` predicate, pairing each region with every tile it intersects,
keeping left-major order. -/
def sjoinIntersects {G : Type} (e : GeomEngine G) (hasFp hasUs : Bool)
    (regions : List (StateRow G)) (tiles : List (TileRow G)) : List JRow :=
  regions.flatMap fun r =>
    (tiles.filter fun t => e.intersectsG r.geom t.geom).map fun t =>
      { statefp := if hasFp then some r.statefp else none
        stusps := if hasUs then some r.stusps else none
        tile_id := t.tile_id
        h := t.h
        v := t.v }

/-- One iteration of the facts builder's per-CRS-group loop (lines
242-274): project, repair, `continue` when nothing remains, else buffer
the regions (only) and join against the group's tile boxes. -/
def processCrsGroup {G : Type} (e : GeomEngine G) (hasFp hasUs : Bool) (srcCrs : String)
    (selected : List (StateRow G)) (tol : ℚ) (crsKey : String)
    (fps : List Footprint) : List JRow :=
  let alive := repairRegions e (projectRegions e srcCrs crsKey selected)
  if alive.isEmpty then []
  else sjoinIntersects e hasFp hasUs (bufferRegions e tol alive) (tileRowsOf e fps)

/-- Lines 235-238: group footprints by CRS string, keys in first-seen
order (Python dict-of-lists semantics). -/
def groupByCrs (fps : List Footprint) : List (String × List Footprint) :=
  (firstsLoop some id (fps.map fun fp => fp.crs) []).map fun ck =>
    (ck, fps.filter fun fp => decide (fp.crs = ck))

/-! ## Output normalization, dedup key and final sort -/

/-- `row.get(col, "") or ""` for an optional string attribute. -/
def pyOrEmpty (o : Option String) : String := o.getD ""

/-- Python `a or b` on strings. -/
def pyOrStr (a b : String) : String := if a = "" then b else a

/-- Models `_to_int_or_blank` (facts builder, lines 282-291) on the
integer-or-missing `h`/`v` values that reach it: `None`/NaN becomes a
blank field and an integer round-trips through `int(float(str(n))) = n`. -/
def toIntOrBlank (value : Option Int) : Option Int :=
  match value with
  | none => none
  | some n => some n

/-- Lines 296-301 of the facts builder: build the normalized output row of
one joined row, `none` when the row is skipped for an empty tile_id. -/
def normalizeJoinedFacts (j : JRow) : Option OutRow :=
  if pyLower j.tile_id = "" then none
  else
    some ⟨pyZfill 2 (pyOrEmpty j.statefp), pyUpper (pyOrEmpty j.stusps),
      pyLower j.tile_id, toIntOrBlank j.h, toIntOrBlank j.v⟩

/-- Lines 113-117 of the shared builder: same, but the tile_id is kept
as-is and `h`/`v` are already integers. -/
def normalizeJoinedShared (j : JRow) : Option OutRow :=
  if j.tile_id = "" then none
  else
    some ⟨pyZfill 2 (pyOrEmpty j.statefp), pyUpper (pyOrEmpty j.stusps),
      j.tile_id, j.h, j.v⟩

/-- The dedup composite key `(statefp or stusps, tile_id)` of an output
row (both builders). -/
def outKeyOf (r : OutRow) : String × String := (pyOrStr r.statefp r.stusps, r.tile_id)

/-- The final sort key comparison: ascending by the `(statefp, tile_id)`
string pair, strings compared lexicographically by code point
(Python tuple/str comparison). -/
def rowLe (a b : OutRow) : Prop :=
  a.statefp < b.statefp ∨ (a.statefp = b.statefp ∧ a.tile_id ≤ b.tile_id)

instance rowLe.decidable : DecidableRel rowLe := fun a b => by
  unfold rowLe
  infer_instance

instance rowLe.total : IsTotal OutRow rowLe where
  total a b := by
    unfold rowLe
    rcases lt_trichotomy a.statefp b.statefp with h | h | h
    · exact Or.inl (Or.inl h)
    · rcases le_total a.tile_id b.tile_id with h2 | h2
      · exact Or.inl (Or.inr ⟨h, h2⟩)
      · exact Or.inr (Or.inr ⟨h.symm, h2⟩)
    · exact Or.inr (Or.inl h)

instance rowLe.trans : IsTrans OutRow rowLe where
  trans a b c hab hbc := by
    unfold rowLe at *
    rcases hab with h1 | ⟨h1, h1t⟩ <;> rcases hbc with h2 | ⟨h2, h2t⟩
    · exact Or.inl (lt_trans h1 h2)
    · exact Or.inl (h2 ▸ h1)
    · exact Or.inl (h1 ▸ h2)
    · exact Or.inr ⟨h1.trans h2, le_trans h1t h2t⟩

/-- Models `rows.sort(key=lambda r: (r["statefp"], r["tile_id"]))`: Python's
stable ascending sort, realized as a stable insertion sort. -/
def sortRows (l : List OutRow) : List OutRow := List.insertionSort rowLe l

theorem sortRows_sorted (l : List OutRow) : (sortRows l).Sorted rowLe :=
  List.sorted_insertionSort rowLe l

theorem sortRows_perm (l : List OutRow) : List.Perm (sortRows l) l :=
  List.perm_insertionSort rowLe l

/-! ## The facts-derived builder (`build_tiles_of_interest_from_facts.py`) -/

/-- The unioned join result of the facts builder: concatenation of the
per-CRS-group joins, in group first-seen order (lines 241-280; empty
groups contribute nothing, matching the `joined_parts` append guard). -/
def unionJoinedFacts {G : Type} (e : GeomEngine G) (fips abbr : Finset String)
    (shp : StateShp G) (srcCrs : String) (fps : List Footprint) (tol : ℚ) : List JRow :=
  ((groupByCrs fps).map fun g =>
    processCrsGroup e shp.hasStatefp shp.hasStusps srcCrs
      (shp.rows.filter (rowSelected shp fips abbr)) tol g.1 g.2).flatten

/-- Lines 201-205: the sorted requested FIPS codes absent from the
boundary source (computed only when the column exists and codes were
requested). -/
def missingFipsOf {G : Type} (shp : StateShp G) (fips : Finset String) : List String :=
  if shp.hasStatefp ∧ fips ≠ ∅ then sortedStrings (fips \ knownFipsOf shp) else []

/-- Lines 206-208: the sorted requested abbreviations absent from the
boundary source. -/
def missingAbbrOf {G : Type} (shp : StateShp G) (abbr : Finset String) : List String :=
  if shp.hasStusps ∧ abbr ≠ ∅ then sortedStrings (abbr \ knownAbbrOf shp) else []

/-- Models `build_tiles_of_interest` of
`build_tiles_of_interest_from_facts.py` (lines 171-331).  File reads and
the CSV write are abstracted: the inputs arrive parsed, a `.ok rows`
result models a run that wrote exactly `rows` (after the header) to the
output CSV, and a `.error` result models a raise before the output file
is opened. -/
def buildToiFromFacts {G : Type} (e : GeomEngine G) (states : StatesCsv)
    (factsHasHeader : Bool) (factsRows : List FactsRow) (shp : StateShp G)
    (touchBuffer : ℚ) : Except BuildError (List OutRow) :=
  match readStateCodesFacts states with
  | .error er => .error er
  | .ok (fips, abbr) =>
    match readRasterFootprints factsHasHeader factsRows with
    | .error er => .error er
    | .ok fps =>
      if shp.rows.isEmpty then .error .emptyShapefile
      else if ¬ (shp.hasStatefp ∨ shp.hasStusps) then .error .missingColumns
      else
        if missingFipsOf shp fips ≠ [] ∨ missingAbbrOf shp abbr ≠ [] then
          .error (.statesNotFound (missingFipsOf shp fips) (missingAbbrOf shp abbr))
        else if ¬ maskApplicable shp fips abbr then .error .noMaskColumns
        else if (shp.rows.filter (rowSelected shp fips abbr)).isEmpty then .error .noMatch
        else
          match shp.crs with
          | none => .error .missingCrs
          | some srcCrs =>
            if (unionJoinedFacts e fips abbr shp srcCrs fps touchBuffer).isEmpty then
              .error .noIntersection
            else
              .ok (sortRows (firstsLoop normalizeJoinedFacts outKeyOf
                (unionJoinedFacts e fips abbr shp srcCrs fps touchBuffer) []))

/-! ## The analytical (MODIS grid) builder (`build_tiles_of_interest.py`) -/

/-- `MODIS_XMIN = -20015109.354` as an exact decimal. -/
def MODIS_XMIN : ℚ := -20015109354 / 1000

/-- `MODIS_YMAX = 10007554.677` as an exact decimal. -/
def MODIS_YMAX : ℚ := 10007554677 / 1000

/-- `MODIS_TILE_SIZE = 1111950.5196666666` as an exact decimal. -/
def MODIS_TILE_SIZE : ℚ := 11119505196666666 / 10000000000

/-- `MODIS_H_MAX = 35`. -/
def MODIS_H_MAX : Nat := 35

/-- `MODIS_V_MAX = 17`. -/
def MODIS_V_MAX : Nat := 17

/-- `MODIS_SINU_WKT`. -/
def MODIS_SINU_WKT : String :=
  "+proj=sinu +R=6371007.181 +nadgrids=@null +wktext +units=m +no_defs"

/-- `f"{n:02d}"` for the grid indexes (all below 100). -/
def pad2 (n : Nat) : String := if n < 10 then "0" ++ toString n else toString n

/-- `f"h{h:02d}v{v:02d}"`. -/
def modisTileId (h v : Nat) : String := "h" ++ pad2 h ++ "v" ++ pad2 v

/-- Models `_iter_modis_tiles` plus the tile-table construction of lines
96-99: all `(h, v)` grid cells with their analytic bounds. -/
def modisTiles {G : Type} (e : GeomEngine G) : List (TileRow G) :=
  (List.range (MODIS_H_MAX + 1)).flatMap fun (h : Nat) =>
    (List.range (MODIS_V_MAX + 1)).map fun (v : Nat) =>
      let minx := MODIS_XMIN + (h : ℚ) * MODIS_TILE_SIZE
      let maxx := minx + MODIS_TILE_SIZE
      let maxy := MODIS_YMAX - (v : ℚ) * MODIS_TILE_SIZE
      let miny := maxy - MODIS_TILE_SIZE
      ⟨modisTileId h v, some (h : Int), some (v : Int), e.box minx miny maxx maxy⟩

/-- The unioned join result of the analytical builder (a single sjoin over
the fixed-grid tiles, lines 95-106); regions whose geometry is missing
after reprojection participate in no pairs. -/
def unionJoinedShared {G : Type} (e : GeomEngine G) (fips abbr : Finset String)
    (shp : StateShp G) (srcCrs : String) : List JRow :=
  sjoinIntersects e shp.hasStatefp shp.hasStusps
    (projectRegions e srcCrs MODIS_SINU_WKT (shp.rows.filter (rowSelected shp fips abbr)))
    (modisTiles e)

/-- Models `build_tiles_of_interest` of the shared
`build_tiles_of_interest.py` (lines 59-140), with the same I/O
abstraction as `buildToiFromFacts`. -/
def buildToiShared {G : Type} (e : GeomEngine G) (csvHasHeader : Bool)
    (csvRows : List (List (String × String))) (shp : StateShp G) :
    Except BuildError (List OutRow) :=
  match readStateCodesShared csvHasHeader csvRows with
  | .error er => .error er
  | .ok (fips, abbr) =>
    if shp.rows.isEmpty then .error .emptyShapefile
    else if ¬ (shp.hasStatefp ∨ shp.hasStusps) then .error .missingColumns
    else if ¬ maskApplicable shp fips abbr then .error .noMaskColumns
    else if (shp.rows.filter (rowSelected shp fips abbr)).isEmpty then .error .noMatch
    else
      match shp.crs with
      | none => .error .missingCrs
      | some srcCrs =>
        if (unionJoinedShared e fips abbr shp srcCrs).isEmpty then .error .noIntersection
        else
          .ok (sortRows (firstsLoop normalizeJoinedShared outKeyOf
            (unionJoinedShared e fips abbr shp srcCrs) []))

/-! ## Vector-tile packaging (`build_vector_tiles_with_tippecanoe.py`) -/

/-- Outcome of the tippecanoe subprocess (`subprocess.run` with captured
output). -/
structure ProcResult where
  returncode : Int
  stdout : String
  stderr : String
deriving DecidableEq

/-- The summary dict returned on success. -/
structure TippecanoeResult where
  tippecanoe_bin : String
  command : String
  layer_name : String
  minimum_zoom : Int
  maximum_zoom : Int
  input_ndjson : String
  output_mbtiles : String
  stdout : String
  stderr : String
  size_bytes : Nat
deriving DecidableEq

/-- The single-quote character. -/
def squote : Char := '\''

/-- Characters `shlex.quote` leaves unquoted: ASCII letters, digits, and
the punctuation underscore, at-sign, percent, plus, equals, colon, comma,
dot, slash, hyphen. -/
def shlexSafeChar (c : Char) : Bool :=
  pyIsAlpha c || pyIsDigit c || decide (c ∈ ['_', '@', '%', '+', '=', ':', ',', '.', '/', '-'])

/-- Models `shlex.quote`. -/
def shlexQuote (s : String) : String :=
  if s = "" then ⟨[squote, squote]⟩
  else if s.data.all shlexSafeChar then s
  else
    ⟨[squote] ++
      (s.data.map fun c =>
        if c = squote then [squote, '"', squote, '"', squote] else [c]).flatten ++
      [squote]⟩

/-- Models `shlex.join`. -/
def shlexJoin (cmd : List String) : String :=
  String.intercalate " " (cmd.map shlexQuote)

/-- Python `s[:n]` on a string: the first `n` characters. -/
def pyTruncate (n : Nat) (s : String) : String := ⟨s.data.take n⟩

/-- The fixed tippecanoe command line (lines 37-59). -/
def tippecanoeCmd (exe outPath layer : String) (minZ maxZ : Int)
    (readParallel detectShared coalesceDensest dropDensest : Bool)
    (inputPath : String) : List String :=
  [exe, "-o", outPath, "-l", layer, "-Z", toString minZ, "-z", toString maxZ,
   "--force", "--no-feature-limit", "--no-tile-size-limit"] ++
  (if readParallel then ["--read-parallel"] else []) ++
  (if detectShared then ["--detect-shared-borders"] else []) ++
  (if coalesceDensest then ["--coalesce-densest-as-needed"] else []) ++
  (if dropDensest then ["--drop-densest-as-needed"] else []) ++
  [inputPath]

/-- Models `build_vector_tiles_with_tippecanoe` (lines 11-86).  Filesystem
probes, the executable lookup and the subprocess itself are abstracted as
inputs: `inputExists` is `input_ndjson.exists()`, `exeFound` is
`shutil.which(tippecanoe_bin)`, `proc` is the completed subprocess,
`outSizeBytes` the final `stat().st_size`.  Errors are modelled by their
message strings. -/
def buildVectorTilesWithTippecanoe (inputExists : Bool) (inputPath outPath layer : String)
    (minZ maxZ : Int) (tippecanoeBin : String) (exeFound : Option String)
    (detectShared coalesceDensest dropDensest readParallel : Bool)
    (proc : ProcResult) (outSizeBytes : Nat) : Except String TippecanoeResult :=
  if ¬ inputExists then .error ("input ndjson not found: " ++ inputPath)
  else if pyStrip layer = "" then .error "layer_name is required"
  else
    match exeFound with
    | none =>
      .error ("tippecanoe binary not found: " ++ tippecanoeBin ++
        ". Install tippecanoe and ensure it is on PATH.")
    | some exe =>
      let cmd := tippecanoeCmd exe outPath layer minZ maxZ
        readParallel detectShared coalesceDensest dropDensest inputPath
      if proc.returncode ≠ 0 then
        .error ("tippecanoe failed rc=" ++ toString proc.returncode ++
          " cmd=" ++ shlexJoin cmd ++ " stderr=" ++ pyTruncate 2000 (pyStrip proc.stderr))
      else
        .ok { tippecanoe_bin := exe
              command := shlexJoin cmd
              layer_name := layer
              minimum_zoom := minZ
              maximum_zoom := maxZ
              input_ndjson := inputPath
              output_mbtiles := outPath
              stdout := proc.stdout
              stderr := proc.stderr
              size_bytes := outSizeBytes }

/-! ## A syntactic geometry term model

Instantiating the engine with geometry *terms* makes the operations the
pipeline applies observable: a claim like "tile footprints are never
buffered" becomes a statement about the constructors occurring in the
geometries handed to the spatial join. -/

/-- Free geometry terms over the engine operations. -/
inductive GTerm where
  | src (i : Nat)
  | reproj (srcCrs dstCrs : String) (t : GTerm)
  | valid (t : GTerm)
  | buffered (d : ℚ) (t : GTerm)
  | boxT (minx miny maxx maxy : ℚ)
deriving DecidableEq

/-- The term engine: every operation is recorded syntactically, nothing is
dropped and everything intersects. -/
def termEngine : GeomEngine GTerm where
  toCrs s d g := some (.reproj s d g)
  makeValid g := .valid g
  isEmptyG _ := false
  buffer d g := .buffered d g
  box a b c d := .boxT a b c d
  intersectsG _ _ := true

/-- Does a geometry term contain any `buffered` node? -/
def hasBuffer : GTerm → Bool
  | .src _ => false
  | .reproj _ _ t => hasBuffer t
  | .valid t => hasBuffer t
  | .buffered _ _ => true
  | .boxT _ _ _ _ => false

/-! ## A concrete rectangle engine for witnesses -/

/-- Axis-aligned rectangles, enough geometry to execute the pipelines on
closed inputs. -/
structure Rect where
  minx : ℚ
  miny : ℚ
  maxx : ℚ
  maxy : ℚ
deriving DecidableEq

/-- A concrete executable engine: reprojection is the identity, repair is
the identity, buffering grows the rectangle, intersection is closed
rectangle overlap. -/
def rectEngine : GeomEngine Rect where
  toCrs _ _ g := some g
  makeValid g := g
  isEmptyG _ := false
  buffer d g := ⟨g.minx - d, g.miny - d, g.maxx + d, g.maxy + d⟩
  box a b c d := ⟨a, b, c, d⟩
  intersectsG a b :=
    decide (a.minx ≤ b.maxx ∧ b.minx ≤ a.maxx ∧ a.miny ≤ b.maxy ∧ b.miny ≤ a.maxy)

/-! ## Helper instances and lemmas -/

instance exceptDecEq {ε α : Type} [DecidableEq ε] [DecidableEq α] :
    DecidableEq (Except ε α) := fun a b =>
  match a, b with
  | .error x, .error y =>
    if h : x = y then isTrue (by rw [h]) else isFalse fun hh => h (by injection hh)
  | .ok x, .ok y =>
    if h : x = y then isTrue (by rw [h]) else isFalse fun hh => h (by injection hh)
  | .error _, .ok _ => isFalse fun hh => Except.noConfusion hh
  | .ok _, .error _ => isFalse fun hh => Except.noConfusion hh

theorem pyZfill_two_length (s : String) : 2 ≤ (pyZfill 2 s).length ∨ 2 ≤ s.length := by
  unfold pyZfill
  split
  · next h => exact Or.inr h
  · next h =>
    left
    split
    · simp [String.length]
    · next c rest heq =>
      simp only [String.length, heq, List.length_cons] at h
      split
      · simp only [String.length, heq, List.length_cons, List.length_append,
          List.length_replicate]
        omega
      · simp only [String.length, heq, List.length_cons, List.length_append,
          List.length_replicate]
        omega

theorem pyZfill_two_ne_empty (s : String) : pyZfill 2 s ≠ "" := by
  intro heq
  rcases pyZfill_two_length s with h | h
  · rw [heq] at h
    simp [String.length] at h
  · unfold pyZfill at heq
    rw [if_pos h] at heq
    rw [heq] at h
    simp [String.length] at h

theorem pyOrStr_zfill (s t : String) : pyOrStr (pyZfill 2 s) t = pyZfill 2 s := by
  unfold pyOrStr
  rw [if_neg (pyZfill_two_ne_empty s)]

theorem pyZfill_two_empty_eq : pyZfill 2 "" = "00" := by with_unfolding_all rfl

/-- Inversion of a successful facts-builder run: the readers succeeded, a CRS
was present, the unioned join is non-empty, and the output is the sorted
first-occurrence dedup of the normalized join. -/
theorem buildToiFromFacts_ok {G : Type} (e : GeomEngine G) (states : StatesCsv)
    (hdr : Bool) (frows : List FactsRow) (shp : StateShp G) (tol : ℚ) (out : List OutRow)
    (h : buildToiFromFacts e states hdr frows shp tol = .ok out) :
    ∃ fips abbr fps srcCrs,
      readStateCodesFacts states = .ok (fips, abbr) ∧
      readRasterFootprints hdr frows = .ok fps ∧
      shp.crs = some srcCrs ∧
      unionJoinedFacts e fips abbr shp srcCrs fps tol ≠ [] ∧
      out = sortRows (firstsLoop normalizeJoinedFacts outKeyOf
        (unionJoinedFacts e fips abbr shp srcCrs fps tol) []) := by
  unfold buildToiFromFacts at h
  repeat' split at h
  any_goals exact Except.noConfusion h
  injection h with h2
  rename_i hne
  refine ⟨_, _, _, _, by assumption, by assumption, by assumption, ?_, h2.symm⟩
  intro hnil
  rw [hnil] at hne
  exact hne rfl

/-- Inversion of a successful analytical-builder run. -/
theorem buildToiShared_ok {G : Type} (e : GeomEngine G) (chdr : Bool)
    (crows : List (List (String × String))) (shp : StateShp G) (out : List OutRow)
    (h : buildToiShared e chdr crows shp = .ok out) :
    ∃ fips abbr srcCrs,
      readStateCodesShared chdr crows = .ok (fips, abbr) ∧
      shp.crs = some srcCrs ∧
      unionJoinedShared e fips abbr shp srcCrs ≠ [] ∧
      out = sortRows (firstsLoop normalizeJoinedShared outKeyOf
        (unionJoinedShared e fips abbr shp srcCrs) []) := by
  unfold buildToiShared at h
  repeat' split at h
  any_goals exact Except.noConfusion h
  injection h with h2
  rename_i hne
  refine ⟨_, _, _, by assumption, by assumption, ?_, h2.symm⟩
  intro hnil
  rw [hnil] at hne
  exact hne rfl

theorem string_not_lt_empty (s : String) : ¬ s < "" := by
  intro h
  rw [String.lt_iff_toList_lt] at h
  have h2 : s.toList < ([] : List Char) := h
  generalize s.toList = l at h2
  cases h2

/-- The output stage of both builders: keys of the emitted rows are
pairwise distinct and every emitted row is the first normalized join row
carrying its key. -/
theorem dedup_core (f : JRow → Option OutRow) (joined : List JRow) :
    ((sortRows (firstsLoop f outKeyOf joined [])).map outKeyOf).Nodup ∧
    ∀ r ∈ sortRows (firstsLoop f outKeyOf joined []),
      (joined.filterMap f).find? (fun c => decide (outKeyOf c = outKeyOf r)) = some r := by
  have hfl : firstsLoop f outKeyOf joined [] = keepFirstsBy outKeyOf (joined.filterMap f) := by
    rw [firstsLoop_eq]
    simp
  constructor
  · rw [hfl]
    have hperm := (sortRows_perm (keepFirstsBy outKeyOf (joined.filterMap f))).map outKeyOf
    exact hperm.nodup_iff.mpr (nodup_keys_keepFirstsBy _ _)
  · intro r hr
    have hmem : r ∈ keepFirstsBy outKeyOf (joined.filterMap f) := by
      rw [← hfl]
      exact (sortRows_perm _).mem_iff.mp hr
    exact find?_keepFirstsBy _ hmem

theorem sortRows_props (l : List OutRow) :
    (sortRows l).Sorted rowLe ∧
      ((sortRows l).Pairwise fun a b => b.statefp = "" → a.statefp = "") := by
  refine ⟨sortRows_sorted l, (sortRows_sorted l).imp ?_⟩
  intro a b hab hb
  rcases hab with hlt | ⟨heq, _⟩
  · rw [hb] at hlt
    exact absurd hlt (string_not_lt_empty _)
  · rw [heq, hb]

/-- C1: For every run of either tiles-of-interest builder that reaches the
output stage, the emitted row list contains at most one row per composite
key (statefp if non-empty, else stusps, paired with tile_id), and when
several joined rows share that key, the row kept is the first one
encountered in the iteration order of the unioned join result. -/
theorem claimC1 :
    (∀ {G : Type} (e : GeomEngine G) (states : StatesCsv) (hdr : Bool)
       (frows : List FactsRow) (shp : StateShp G) (tol : ℚ) (out : List OutRow),
       buildToiFromFacts e states hdr frows shp tol = .ok out →
       (out.map outKeyOf).Nodup ∧
       ∃ fips abbr fps srcCrs,
         readStateCodesFacts states = .ok (fips, abbr) ∧
         readRasterFootprints hdr frows = .ok fps ∧
         shp.crs = some srcCrs ∧
         ∀ r ∈ out,
           ((unionJoinedFacts e fips abbr shp srcCrs fps tol).filterMap
             normalizeJoinedFacts).find? (fun c => decide (outKeyOf c = outKeyOf r)) = some r) ∧
    (∀ {G : Type} (e : GeomEngine G) (chdr : Bool) (crows : List (List (String × String)))
       (shp : StateShp G) (out : List OutRow),
       buildToiShared e chdr crows shp = .ok out →
       (out.map outKeyOf).Nodup ∧
       ∃ fips abbr srcCrs,
         readStateCodesShared chdr crows = .ok (fips, abbr) ∧
         shp.crs = some srcCrs ∧
         ∀ r ∈ out,
           ((unionJoinedShared e fips abbr shp srcCrs).filterMap
             normalizeJoinedShared).find? (fun c => decide (outKeyOf c = outKeyOf r)) = some r) := by
  constructor
  · intro G e states hdr frows shp tol out h
    obtain ⟨fips, abbr, fps, srcCrs, hcodes, hfps, hcrs, _, hout⟩ :=
      buildToiFromFacts_ok e states hdr frows shp tol out h
    subst hout
    obtain ⟨hnodup, hfind⟩ := dedup_core normalizeJoinedFacts
      (unionJoinedFacts e fips abbr shp srcCrs fps tol)
    exact ⟨hnodup, fips, abbr, fps, srcCrs, hcodes, hfps, hcrs, hfind⟩
  · intro G e chdr crows shp out h
    obtain ⟨fips, abbr, srcCrs, hcodes, hcrs, _, hout⟩ :=
      buildToiShared_ok e chdr crows shp out h
    subst hout
    obtain ⟨hnodup, hfind⟩ := dedup_core normalizeJoinedShared
      (unionJoinedShared e fips abbr shp srcCrs)
    exact ⟨hnodup, fips, abbr, srcCrs, hcodes, hcrs, hfind⟩

theorem claimC1_witness :
    (([⟨"06", "CA", "h01v01", some 1, some 1⟩,
       ⟨"06", "CA", "h02v02", some 2, some 2⟩] : List OutRow).map outKeyOf).Nodup ∧
    (([⟨"06", "CA", "h00v00", some 0, some 0⟩] : List OutRow).map outKeyOf).Nodup := by
  constructor
  · exact (claimC1.1 rectEngine (.plain [["06"]]) true
      [⟨"t/h01v01_b1.tif", "0,0,1,1", "EPSG:32611"⟩,
       ⟨"t/h01v01_b2.tif", "0,0,2,2", "EPSG:32611"⟩,
       ⟨"t/h02v02.tif", "3,3,4,4", "EPSG:32611"⟩]
      { hasStatefp := true, hasStusps := true, crs := some "EPSG:4326",
        rows := [⟨"6", "CA", ⟨0, 0, 10, 10⟩⟩] } 1
      [⟨"06", "CA", "h01v01", some 1, some 1⟩, ⟨"06", "CA", "h02v02", some 2, some 2⟩]
      (by with_unfolding_all rfl)).1
  · exact (claimC1.2 rectEngine true [[("statefp", "06")]]
      { hasStatefp := true, hasStusps := true, crs := some "EPSG:4326",
        rows := [⟨"6", "CA", ⟨MODIS_XMIN, MODIS_YMAX - 1, MODIS_XMIN + 1, MODIS_YMAX⟩⟩] }
      [⟨"06", "CA", "h00v00", some 0, some 0⟩]
      (by set_option maxRecDepth 100000 in with_unfolding_all rfl)).1

/-- C2: The final output rows of both tiles-of-interest builders are sorted
ascending by the pair (statefp, tile_id) under plain string comparison on
the normalized zero-padded statefp, and any row whose statefp is the empty
string precedes every row with a numeric statefp. -/
theorem claimC2 :
    (∀ {G : Type} (e : GeomEngine G) (states : StatesCsv) (hdr : Bool)
       (frows : List FactsRow) (shp : StateShp G) (tol : ℚ) (out : List OutRow),
       buildToiFromFacts e states hdr frows shp tol = .ok out →
       out.Sorted rowLe ∧ (out.Pairwise fun a b => b.statefp = "" → a.statefp = "")) ∧
    (∀ {G : Type} (e : GeomEngine G) (chdr : Bool) (crows : List (List (String × String)))
       (shp : StateShp G) (out : List OutRow),
       buildToiShared e chdr crows shp = .ok out →
       out.Sorted rowLe ∧ (out.Pairwise fun a b => b.statefp = "" → a.statefp = "")) := by
  constructor
  · intro G e states hdr frows shp tol out h
    obtain ⟨_, _, _, _, _, _, _, _, hout⟩ := buildToiFromFacts_ok e states hdr frows shp tol out h
    subst hout
    exact sortRows_props _
  · intro G e chdr crows shp out h
    obtain ⟨_, _, _, _, _, _, hout⟩ := buildToiShared_ok e chdr crows shp out h
    subst hout
    exact sortRows_props _

theorem claimC2_witness :
    ([⟨"06", "CA", "h01v01", some 1, some 1⟩,
      ⟨"06", "CA", "h02v02", some 2, some 2⟩] : List OutRow).Sorted rowLe ∧
    ([⟨"06", "CA", "h00v00", some 0, some 0⟩] : List OutRow).Sorted rowLe := by
  constructor
  · exact (claimC2.1 rectEngine (.plain [["06"]]) true
      [⟨"t/h01v01_b1.tif", "0,0,1,1", "EPSG:32611"⟩,
       ⟨"t/h01v01_b2.tif", "0,0,2,2", "EPSG:32611"⟩,
       ⟨"t/h02v02.tif", "3,3,4,4", "EPSG:32611"⟩]
      { hasStatefp := true, hasStusps := true, crs := some "EPSG:4326",
        rows := [⟨"6", "CA", ⟨0, 0, 10, 10⟩⟩] } 1
      [⟨"06", "CA", "h01v01", some 1, some 1⟩, ⟨"06", "CA", "h02v02", some 2, some 2⟩]
      (by with_unfolding_all rfl)).1
  · exact (claimC2.2 rectEngine true [[("statefp", "06")]]
      { hasStatefp := true, hasStusps := true, crs := some "EPSG:4326",
        rows := [⟨"6", "CA", ⟨MODIS_XMIN, MODIS_YMAX - 1, MODIS_XMIN + 1, MODIS_YMAX⟩⟩] }
      [⟨"06", "CA", "h00v00", some 0, some 0⟩]
      (by set_option maxRecDepth 100000 in with_unfolding_all rfl)).1

/-- Inversion of a successful footprint read: the result is the
first-occurrence-per-tile_id filter of the usable rows. -/
theorem readRasterFootprints_ok (rows : List FactsRow) (fps : List Footprint)
    (h : readRasterFootprints true rows = .ok fps) :
    fps = keepFirstsBy (fun fp => fp.tile_id) (rows.filterMap fpOfRow?) ∧ fps ≠ [] := by
  unfold readRasterFootprints at h
  rw [if_neg (by simp)] at h
  have hfl : firstsLoop fpOfRow? (fun fp => fp.tile_id) rows [] =
      keepFirstsBy (fun fp => fp.tile_id) (rows.filterMap fpOfRow?) := by
    rw [firstsLoop_eq]
    simp
  rw [hfl] at h
  split at h
  · exact Except.noConfusion h
  · next hne =>
    injection h with h2
    exact ⟨h2.symm, h2 ▸ hne⟩

/-- C3: In the facts-derived footprint reader, for every tile_id the
footprint used is exactly the bounding box of the first usable metadata row
whose normalized tile_id matches; the bounds of every later row with the
same tile_id are discarded and are never merged with or validated against
the first. -/
theorem claimC3 :
    ∀ (rows : List FactsRow) (fps : List Footprint),
      readRasterFootprints true rows = .ok fps →
      ((fps.map fun fp => fp.tile_id).Nodup) ∧
      ∀ fp ∈ fps,
        (rows.filterMap fpOfRow?).find? (fun c => decide (c.tile_id = fp.tile_id)) =
          some fp := by
  intro rows fps h
  obtain ⟨hshape, _⟩ := readRasterFootprints_ok rows fps h
  subst hshape
  refine ⟨nodup_keys_keepFirstsBy _ _, ?_⟩
  intro fp hfp
  exact find?_keepFirstsBy _ hfp

theorem claimC3_witness :
    ((([⟨"h01v01", some 1, some 1, "EPSG:32611", 0, 0, 1, 1⟩,
        ⟨"h02v02", some 2, some 2, "EPSG:32611", 3, 3, 4, 4⟩] : List Footprint).map
        fun fp => fp.tile_id).Nodup) ∧
    (([⟨"t/h01v01_b1.tif", "0,0,1,1", "EPSG:32611"⟩,
       ⟨"t/h01v01_b2.tif", "0,0,2,2", "EPSG:32611"⟩,
       ⟨"t/h02v02.tif", "3,3,4,4", "EPSG:32611"⟩] : List FactsRow).filterMap
        fpOfRow?).find?
      (fun c => decide (c.tile_id =
        (⟨"h01v01", some 1, some 1, "EPSG:32611", 0, 0, 1, 1⟩ : Footprint).tile_id)) =
      some ⟨"h01v01", some 1, some 1, "EPSG:32611", 0, 0, 1, 1⟩ := by
  have h := claimC3
    [⟨"t/h01v01_b1.tif", "0,0,1,1", "EPSG:32611"⟩,
     ⟨"t/h01v01_b2.tif", "0,0,2,2", "EPSG:32611"⟩,
     ⟨"t/h02v02.tif", "3,3,4,4", "EPSG:32611"⟩]
    [⟨"h01v01", some 1, some 1, "EPSG:32611", 0, 0, 1, 1⟩,
     ⟨"h02v02", some 2, some 2, "EPSG:32611", 3, 3, 4, 4⟩]
    (by with_unfolding_all rfl)
  exact ⟨h.1, h.2 _ (by simp)⟩

theorem normalizeJoinedFacts_statefp (j : JRow) (r : OutRow)
    (h : normalizeJoinedFacts j = some r) :
    r.statefp = pyZfill 2 (pyOrEmpty j.statefp) := by
  unfold normalizeJoinedFacts at h
  split at h
  · exact Option.noConfusion h
  · injection h with h2
    rw [← h2]

theorem normalizeJoinedShared_statefp (j : JRow) (r : OutRow)
    (h : normalizeJoinedShared j = some r) :
    r.statefp = pyZfill 2 (pyOrEmpty j.statefp) := by
  unfold normalizeJoinedShared at h
  split at h
  · exact Option.noConfusion h
  · injection h with h2
    rw [← h2]

theorem mem_sort_firstsLoop (f : JRow → Option OutRow) (joined : List JRow) (r : OutRow)
    (hr : r ∈ sortRows (firstsLoop f outKeyOf joined [])) : ∃ j, f j = some r := by
  have hfl : firstsLoop f outKeyOf joined [] = keepFirstsBy outKeyOf (joined.filterMap f) := by
    rw [firstsLoop_eq]
    simp
  rw [hfl] at hr
  have hmem := mem_of_mem_keepFirstsBy outKeyOf ((sortRows_perm _).mem_iff.mp hr)
  obtain ⟨j, _, hj⟩ := List.mem_filterMap.mp hmem
  exact ⟨j, hj⟩

theorem statefp_key_of_zfill (r : OutRow) (s : String)
    (h : r.statefp = pyZfill 2 s) :
    r.statefp ≠ "" ∧ outKeyOf r = (r.statefp, r.tile_id) := by
  constructor
  · rw [h]
    exact pyZfill_two_ne_empty s
  · unfold outKeyOf
    rw [h, pyOrStr_zfill]

/-- C9: In both builders' output-normalization step, a missing or empty
STATEFP attribute is zero-padded to the string "00", so every emitted
row's statefp field is a non-empty string; consequently the dedup
composite key always uses the statefp slot (the abbreviation fallback is
unreachable) and no output row ever has an empty statefp under the final
sort. -/
theorem claimC9 :
    (∀ (j : JRow) (r : OutRow), normalizeJoinedFacts j = some r →
       r.statefp ≠ "" ∧ outKeyOf r = (r.statefp, r.tile_id) ∧
       ((j.statefp = none ∨ j.statefp = some "") → r.statefp = "00")) ∧
    (∀ (j : JRow) (r : OutRow), normalizeJoinedShared j = some r →
       r.statefp ≠ "" ∧ outKeyOf r = (r.statefp, r.tile_id) ∧
       ((j.statefp = none ∨ j.statefp = some "") → r.statefp = "00")) ∧
    (∀ {G : Type} (e : GeomEngine G) (states : StatesCsv) (hdr : Bool)
       (frows : List FactsRow) (shp : StateShp G) (tol : ℚ) (out : List OutRow),
       buildToiFromFacts e states hdr frows shp tol = .ok out →
       ∀ r ∈ out, r.statefp ≠ "" ∧ outKeyOf r = (r.statefp, r.tile_id)) ∧
    (∀ {G : Type} (e : GeomEngine G) (chdr : Bool) (crows : List (List (String × String)))
       (shp : StateShp G) (out : List OutRow),
       buildToiShared e chdr crows shp = .ok out →
       ∀ r ∈ out, r.statefp ≠ "" ∧ outKeyOf r = (r.statefp, r.tile_id)) := by
  have hfacts : ∀ (j : JRow) (r : OutRow), normalizeJoinedFacts j = some r →
      r.statefp ≠ "" ∧ outKeyOf r = (r.statefp, r.tile_id) ∧
      ((j.statefp = none ∨ j.statefp = some "") → r.statefp = "00") := by
    intro j r h
    have hz := normalizeJoinedFacts_statefp j r h
    obtain ⟨h1, h2⟩ := statefp_key_of_zfill r _ hz
    refine ⟨h1, h2, ?_⟩
    intro hempty
    have : pyOrEmpty j.statefp = "" := by
      rcases hempty with he | he <;> rw [he] <;> rfl
    rw [hz, this]
    exact pyZfill_two_empty_eq
  have hshared : ∀ (j : JRow) (r : OutRow), normalizeJoinedShared j = some r →
      r.statefp ≠ "" ∧ outKeyOf r = (r.statefp, r.tile_id) ∧
      ((j.statefp = none ∨ j.statefp = some "") → r.statefp = "00") := by
    intro j r h
    have hz := normalizeJoinedShared_statefp j r h
    obtain ⟨h1, h2⟩ := statefp_key_of_zfill r _ hz
    refine ⟨h1, h2, ?_⟩
    intro hempty
    have : pyOrEmpty j.statefp = "" := by
      rcases hempty with he | he <;> rw [he] <;> rfl
    rw [hz, this]
    exact pyZfill_two_empty_eq
  refine ⟨hfacts, hshared, ?_, ?_⟩
  · intro G e states hdr frows shp tol out h r hr
    obtain ⟨_, _, _, _, _, _, _, _, hout⟩ := buildToiFromFacts_ok e states hdr frows shp tol out h
    subst hout
    obtain ⟨j, hj⟩ := mem_sort_firstsLoop _ _ r hr
    exact ⟨(hfacts j r hj).1, (hfacts j r hj).2.1⟩
  · intro G e chdr crows shp out h r hr
    obtain ⟨_, _, _, _, _, _, hout⟩ := buildToiShared_ok e chdr crows shp out h
    subst hout
    obtain ⟨j, hj⟩ := mem_sort_firstsLoop _ _ r hr
    exact ⟨(hshared j r hj).1, (hshared j r hj).2.1⟩

theorem claimC9_witness :
    (("00" : String) ≠ "" ∧
      outKeyOf ⟨"00", "CA", "t1", none, none⟩ = ("00", "t1") ∧
      (("00" : String) = "00")) ∧
    (("06" : String) ≠ "" ∧
      outKeyOf ⟨"06", "CA", "h00v00", some 0, some 0⟩ = ("06", "h00v00")) := by
  constructor
  · exact claimC9.1 ⟨none, some "ca", "T1", none, none⟩ ⟨"00", "CA", "t1", none, none⟩
      (by with_unfolding_all rfl) |>.imp id (fun hp => ⟨hp.1, hp.2 (Or.inl rfl)⟩)
  · have h := claimC9.2.2.2 rectEngine true [[("statefp", "06")]]
      { hasStatefp := true, hasStusps := true, crs := some "EPSG:4326",
        rows := [⟨"6", "CA", ⟨MODIS_XMIN, MODIS_YMAX - 1, MODIS_XMIN + 1, MODIS_YMAX⟩⟩] }
      [⟨"06", "CA", "h00v00", some 0, some 0⟩]
      (by set_option maxRecDepth 100000 in with_unfolding_all rfl)
      ⟨"06", "CA", "h00v00", some 0, some 0⟩ (by simp)
    exact h

/-- Lines 193-217 of the facts builder: with both readers successful, a
non-empty shapefile with at least one code column, and a non-empty missing
list, the requested-states-not-found error is raised. -/
theorem buildToiFromFacts_missing {G : Type} (e : GeomEngine G) (states : StatesCsv)
    (hdr : Bool) (frows : List FactsRow) (shp : StateShp G) (tol : ℚ)
    (fips abbr : Finset String) (fps : List Footprint)
    (hcodes : readStateCodesFacts states = .ok (fips, abbr))
    (hfps : readRasterFootprints hdr frows = .ok fps)
    (hrows : shp.rows ≠ []) (hcols : shp.hasStatefp ∨ shp.hasStusps)
    (hmiss : missingFipsOf shp fips ≠ [] ∨ missingAbbrOf shp abbr ≠ []) :
    buildToiFromFacts e states hdr frows shp tol =
      .error (.statesNotFound (missingFipsOf shp fips) (missingAbbrOf shp abbr)) := by
  have hrows' : shp.rows.isEmpty = false := by
    cases hsr : shp.rows with
    | nil => exact absurd hsr hrows
    | cons a l => rfl
  unfold buildToiFromFacts
  rw [hcodes, hfps]
  simp only [hrows', Bool.false_eq_true, if_false, if_neg (not_not_intro hcols),
    if_pos hmiss]

/-- C10: Before computing the selection mask, the facts-derived resolver
checks every requested FIPS code and abbreviation against the boundary
source's corresponding columns and fails with an error listing the missing
codes whenever at least one requested code is absent, even if other
requested codes do match regions in the source. -/
theorem claimC10 :
    ∀ {G : Type} (e : GeomEngine G) (states : StatesCsv) (hdr : Bool)
      (frows : List FactsRow) (shp : StateShp G) (tol : ℚ)
      (fips abbr : Finset String) (fps : List Footprint),
      readStateCodesFacts states = .ok (fips, abbr) →
      readRasterFootprints hdr frows = .ok fps →
      shp.rows ≠ [] → (shp.hasStatefp ∨ shp.hasStusps) →
      (missingFipsOf shp fips ≠ [] ∨ missingAbbrOf shp abbr ≠ []) →
      buildToiFromFacts e states hdr frows shp tol =
        .error (.statesNotFound (missingFipsOf shp fips) (missingAbbrOf shp abbr)) ∧
      (∀ c, c ∈ missingFipsOf shp fips ↔
        (shp.hasStatefp ∧ fips ≠ ∅) ∧ c ∈ fips ∧ c ∉ knownFipsOf shp) ∧
      (∀ c, c ∈ missingAbbrOf shp abbr ↔
        (shp.hasStusps ∧ abbr ≠ ∅) ∧ c ∈ abbr ∧ c ∉ knownAbbrOf shp) := by
  intro G e states hdr frows shp tol fips abbr fps hcodes hfps hrows hcols hmiss
  have hrows' : shp.rows.isEmpty = false := by
    cases hsr : shp.rows with
    | nil => exact absurd hsr hrows
    | cons a l => rfl
  refine ⟨buildToiFromFacts_missing e states hdr frows shp tol fips abbr fps
    hcodes hfps hrows hcols hmiss, ?_, ?_⟩
  · intro c
    unfold missingFipsOf
    split
    · next hcond =>
      unfold sortedStrings
      rw [Finset.mem_sort, Finset.mem_sdiff]
      exact ⟨fun ⟨h1, h2⟩ => ⟨hcond, h1, h2⟩, fun ⟨_, h1, h2⟩ => ⟨h1, h2⟩⟩
    · next hcond =>
      simp only [List.not_mem_nil, false_iff]
      intro ⟨hc, _⟩
      exact hcond hc
  · intro c
    unfold missingAbbrOf
    split
    · next hcond =>
      unfold sortedStrings
      rw [Finset.mem_sort, Finset.mem_sdiff]
      exact ⟨fun ⟨h1, h2⟩ => ⟨hcond, h1, h2⟩, fun ⟨_, h1, h2⟩ => ⟨h1, h2⟩⟩
    · next hcond =>
      simp only [List.not_mem_nil, false_iff]
      intro ⟨hc, _⟩
      exact hcond hc

theorem claimC10_witness :
    buildToiFromFacts rectEngine (.plain [["06"], ["99"]]) true
      [⟨"t/h01v01_b1.tif", "0,0,1,1", "EPSG:32611"⟩]
      { hasStatefp := true, hasStusps := true, crs := some "EPSG:4326",
        rows := [⟨"6", "CA", ⟨0, 0, 10, 10⟩⟩] } 1 =
      .error (.statesNotFound
        (missingFipsOf
          { hasStatefp := true, hasStusps := true, crs := some "EPSG:4326",
            rows := [(⟨"6", "CA", ⟨0, 0, 10, 10⟩⟩ : StateRow Rect)] } ({"06", "99"} : Finset String))
        (missingAbbrOf
          { hasStatefp := true, hasStusps := true, crs := some "EPSG:4326",
            rows := [(⟨"6", "CA", ⟨0, 0, 10, 10⟩⟩ : StateRow Rect)] } (∅ : Finset String))) ∧
    ("99" ∈ missingFipsOf
      { hasStatefp := true, hasStusps := true, crs := some "EPSG:4326",
        rows := [(⟨"6", "CA", ⟨0, 0, 10, 10⟩⟩ : StateRow Rect)] } ({"06", "99"} : Finset String) ↔
      (True ∧ ({"06", "99"} : Finset String) ≠ ∅) ∧ "99" ∈ ({"06", "99"} : Finset String) ∧
        "99" ∉ knownFipsOf
          { hasStatefp := true, hasStusps := true, crs := some "EPSG:4326",
            rows := [(⟨"6", "CA", ⟨0, 0, 10, 10⟩⟩ : StateRow Rect)] }) := by
  have h := claimC10 rectEngine (.plain [["06"], ["99"]]) true
    [⟨"t/h01v01_b1.tif", "0,0,1,1", "EPSG:32611"⟩]
    { hasStatefp := true, hasStusps := true, crs := some "EPSG:4326",
      rows := [⟨"6", "CA", ⟨0, 0, 10, 10⟩⟩] } 1
    ({"06", "99"} : Finset String) (∅ : Finset String)
    [⟨"h01v01", some 1, some 1, "EPSG:32611", 0, 0, 1, 1⟩]
    (by with_unfolding_all decide)
    (by with_unfolding_all rfl)
    (by simp)
    (Or.inl rfl)
    (Or.inl (by with_unfolding_all decide))
  refine ⟨h.1, ?_⟩
  have h2 := h.2.1 "99"
  simpa using h2

theorem repaired_no_buffer (srcCrs crsKey : String) (selected : List (StateRow GTerm))
    (hsel : ∀ s ∈ selected, hasBuffer s.geom = false) :
    ∀ r ∈ repairRegions termEngine (projectRegions termEngine srcCrs crsKey selected),
      hasBuffer r.geom = false := by
  intro r hr
  unfold repairRegions at hr
  have hr2 := List.mem_of_mem_filter hr
  obtain ⟨r1, hr1, hmap⟩ := List.mem_map.mp hr2
  unfold projectRegions at hr1
  obtain ⟨r0, hr0, hfm⟩ := List.mem_filterMap.mp hr1
  simp only [termEngine, Option.map_some'] at hfm
  injection hfm with hfm2
  rw [← hmap]
  simp only [termEngine]
  rw [← hfm2]
  simp only [hasBuffer]
  exact hsel r0 hr0

/-- C5: In the facts-derived resolver, the tolerance buffer (default 1.0)
is applied to the repaired selected-region geometries only, never to tile
footprints, and it is applied if and only if the tolerance value is
strictly greater than 0; when the tolerance is ≤ 0 the geometries passed
to the spatial join are the repaired regions unchanged.  (The spatial join
of `processCrsGroup` consumes exactly `bufferRegions` on the region side
and `tileRowsOf` on the tile side; stated over the syntactic term engine,
where an applied buffer is observable as a `GTerm.buffered` node.) -/
theorem claimC5 :
    (∀ {G : Type} (e : GeomEngine G) (tol : ℚ) (rows : List (StateRow G)),
       tol ≤ 0 → bufferRegions e tol rows = rows) ∧
    (∀ (fps : List Footprint) (t : TileRow GTerm), t ∈ tileRowsOf termEngine fps →
       hasBuffer t.geom = false ∧
       ∃ fp ∈ fps, t.geom = GTerm.boxT fp.minx fp.miny fp.maxx fp.maxy) ∧
    (∀ (srcCrs crsKey : String) (selected : List (StateRow GTerm)) (tol : ℚ),
       0 < tol → (∀ s ∈ selected, hasBuffer s.geom = false) →
       ∀ r ∈ bufferRegions termEngine tol
         (repairRegions termEngine (projectRegions termEngine srcCrs crsKey selected)),
         ∃ g, r.geom = GTerm.buffered tol g ∧ hasBuffer g = false) ∧
    (∀ (srcCrs crsKey : String) (selected : List (StateRow GTerm)) (tol : ℚ),
       tol ≤ 0 → (∀ s ∈ selected, hasBuffer s.geom = false) →
       ∀ r ∈ bufferRegions termEngine tol
         (repairRegions termEngine (projectRegions termEngine srcCrs crsKey selected)),
         hasBuffer r.geom = false) := by
  refine ⟨?_, ?_, ?_, ?_⟩
  · intro G e tol rows htol
    unfold bufferRegions
    rw [if_neg (not_lt.mpr htol)]
  · intro fps t ht
    unfold tileRowsOf at ht
    obtain ⟨fp, hfp, hmap⟩ := List.mem_map.mp ht
    rw [← hmap]
    exact ⟨rfl, fp, hfp, rfl⟩
  · intro srcCrs crsKey selected tol htol hsel r hr
    unfold bufferRegions at hr
    rw [if_pos htol] at hr
    obtain ⟨r1, hr1, hmap⟩ := List.mem_map.mp hr
    refine ⟨r1.geom, ?_, repaired_no_buffer srcCrs crsKey selected hsel r1 hr1⟩
    rw [← hmap]
    rfl
  · intro srcCrs crsKey selected tol htol hsel r hr
    unfold bufferRegions at hr
    rw [if_neg (not_lt.mpr htol)] at hr
    exact repaired_no_buffer srcCrs crsKey selected hsel r hr

theorem claimC5_witness :
    bufferRegions rectEngine 0 [(⟨"6", "CA", ⟨0, 0, 10, 10⟩⟩ : StateRow Rect)] =
      [(⟨"6", "CA", ⟨0, 0, 10, 10⟩⟩ : StateRow Rect)] ∧
    (hasBuffer (GTerm.boxT 0 0 1 1) = false ∧
      ∃ fp ∈ [(⟨"h01v01", some 1, some 1, "EPSG:32611", 0, 0, 1, 1⟩ : Footprint)],
        GTerm.boxT 0 0 1 1 = GTerm.boxT fp.minx fp.miny fp.maxx fp.maxy) ∧
    (∃ g, GTerm.buffered 1 (GTerm.valid (GTerm.reproj "EPSG:4326" "EPSG:32611" (GTerm.src 0))) =
      GTerm.buffered 1 g ∧ hasBuffer g = false) := by
  refine ⟨?_, ?_, ?_⟩
  · exact claimC5.1 rectEngine 0 [⟨"6", "CA", ⟨0, 0, 10, 10⟩⟩] le_rfl
  · exact claimC5.2.1 [⟨"h01v01", some 1, some 1, "EPSG:32611", 0, 0, 1, 1⟩]
      ⟨"h01v01", some 1, some 1, GTerm.boxT 0 0 1 1⟩ (by with_unfolding_all decide)
  · have h := claimC5.2.2.1 "EPSG:4326" "EPSG:32611" [⟨"06", "CA", GTerm.src 0⟩] 1
      (by with_unfolding_all decide) (by intro s hs; simp at hs; rw [hs]; rfl)
      ⟨"06", "CA", GTerm.buffered 1 (GTerm.valid (GTerm.reproj "EPSG:4326" "EPSG:32611" (GTerm.src 0)))⟩
      (by with_unfolding_all decide)
    exact h

/-! ## Character-class lemmas for the region readers -/

theorem listIndexOf?_lt_length [DecidableEq α] (a : α) :
    ∀ (l : List α) (i : Nat), listIndexOf? a l = some i → i < l.length := by
  intro l
  induction l with
  | nil => intro i h; exact Option.noConfusion h
  | cons x xs ih =>
    intro i h
    unfold listIndexOf? at h
    split at h
    · injection h with h2
      simp [← h2]
    · cases hm : listIndexOf? a xs with
      | none => rw [hm] at h; exact Option.noConfusion h
      | some j =>
        rw [hm] at h
        injection h with h2
        have := ih j hm
        simp only [List.length_cons, ← h2]
        omega

theorem listIndexOf?_eq_none [DecidableEq α] (a : α) :
    ∀ (l : List α), listIndexOf? a l = none → a ∉ l := by
  intro l
  induction l with
  | nil => intro _ h; exact List.not_mem_nil a h
  | cons x xs ih =>
    intro h hmem
    unfold listIndexOf? at h
    split at h
    · exact Option.noConfusion h
    · next hne =>
      rcases List.mem_cons.mp hmem with heq | hmem2
      · exact hne heq.symm
      · cases hm : listIndexOf? a xs with
        | none => exact ih hm hmem2
        | some j => rw [hm] at h; exact Option.noConfusion h

theorem pyToUpper_upper_of_alpha (c : Char) (h : pyIsAlpha c = true) :
    pyIsUpper (pyToUpper c) = true := by
  unfold pyToUpper
  cases hidx : listIndexOf? c asciiLower with
  | some i =>
    have hi : i < asciiLower.length := listIndexOf?_lt_length c asciiLower i hidx
    have hi2 : i < asciiUpper.length := by
      have e1 : asciiLower.length = 26 := by decide
      have e2 : asciiUpper.length = 26 := by decide
      omega
    simp only []
    rw [List.getD_eq_getElem _ _ hi2]
    have hall : asciiUpper.all pyIsUpper = true := by decide
    exact List.all_eq_true.mp hall _ (List.getElem_mem hi2)
  | none =>
    have hmem : c ∉ asciiLower := listIndexOf?_eq_none c asciiLower hidx
    unfold pyIsAlpha at h
    simp only [decide_eq_true_eq] at h
    rcases h with h | h
    · exact absurd h hmem
    · unfold pyIsUpper
      simp [h]

theorem digitsOf_all_digits (s : String) : (digitsOf s).data.all pyIsDigit = true := by
  unfold digitsOf
  exact List.all_eq_true.mpr fun c hc => List.of_mem_filter hc

theorem alphaUpperOf_all_upper (s : String) :
    (alphaUpperOf s).data.all pyIsUpper = true := by
  unfold alphaUpperOf
  refine List.all_eq_true.mpr fun c hc => ?_
  obtain ⟨c0, hc0, hmap⟩ := List.mem_map.mp hc
  rw [← hmap]
  exact pyToUpper_upper_of_alpha c0 (List.of_mem_filter hc0)

theorem digit_not_sign (c : Char) (h : pyIsDigit c = true) : ¬ (c = '+' ∨ c = '-') := by
  unfold pyIsDigit at h
  simp only [decide_eq_true_eq] at h
  have hall : ∀ x ∈ asciiDigits, ¬ (x = '+' ∨ x = '-') := by decide
  exact hall c h

theorem string_ne_empty_of_data {s : String} {c : Char} {rest : List Char}
    (h : s.data = c :: rest) : s ≠ "" := by
  intro heq
  rw [heq] at h
  exact List.noConfusion h

theorem pyZfill_of_le (w : Nat) (s : String) (h : w ≤ s.length) : pyZfill w s = s := by
  unfold pyZfill
  rw [if_pos h]

theorem pyZfill_two_digits (s : String) (hs : s.data.all pyIsDigit = true) (hne : s ≠ "") :
    2 ≤ (pyZfill 2 s).length ∧ (pyZfill 2 s).data.all pyIsDigit = true := by
  by_cases h : 2 ≤ s.length
  · rw [pyZfill_of_le 2 s h]
    exact ⟨h, hs⟩
  · cases hdata : s.data with
    | nil =>
      exfalso
      apply hne
      cases s with
      | mk data => cases hdata; rfl
    | cons c rest =>
      have hcd : pyIsDigit c = true := by
        have := List.all_eq_true.mp hs c (by rw [hdata]; exact List.mem_cons_self _ _)
        exact this
      unfold pyZfill
      rw [if_neg h]
      rw [hdata]
      simp only []
      rw [if_neg (digit_not_sign c hcd)]
      constructor
      · simp only [String.length, List.length_append, List.length_replicate, List.length_cons]
        have hdl : s.data.length = rest.length + 1 := by
          rw [hdata]
          simp
        have hlen : s.length = s.data.length := rfl
        omega
      · refine List.all_eq_true.mpr fun x hx => ?_
        rcases List.mem_append.mp hx with hx | hx
        · have : x = '0' := List.eq_of_mem_replicate hx
          rw [this]
          decide
        · exact List.all_eq_true.mp hs x (by rw [hdata]; exact hx)

theorem foldl_inv {σ α : Type} {P : σ → Prop} (step : σ → α → σ)
    (hstep : ∀ acc x, P acc → P (step acc x)) :
    ∀ (l : List α) (acc : σ), P acc → P (l.foldl step acc) := by
  intro l
  induction l with
  | nil => intro acc h; exact h
  | cons x xs ih => intro acc h; exact ih _ (hstep _ _ h)

theorem foldl_rows_inv {σ α : Type} {P : σ → Prop} (step : σ → α → σ)
    (hstep : ∀ acc x, P acc → P (step acc x)) (rows : List (List α)) (acc : σ)
    (h : P acc) : P (rows.foldl (fun a row => row.foldl step a) acc) :=
  foldl_inv _ (fun acc row hacc => foldl_inv step hstep row acc hacc) rows acc h

theorem addHeaderedCellShared_fst (acc : Finset String × Finset String)
    (kv : String × String) :
    (addHeaderedCellShared acc kv).1 = acc.1 ∨
    ∃ v : String, digitsOf v ≠ "" ∧
      (addHeaderedCellShared acc kv).1 = insert (pyZfill 2 (digitsOf v)) acc.1 := by
  simp only [addHeaderedCellShared]
  repeat' split
  all_goals first
    | exact Or.inl rfl
    | exact Or.inr ⟨pyStrip kv.2, by assumption, rfl⟩

theorem addHeaderedCellShared_snd (acc : Finset String × Finset String)
    (kv : String × String) :
    (addHeaderedCellShared acc kv).2 = acc.2 ∨
    ∃ v : String, alphaUpperOf v ≠ "" ∧
      (addHeaderedCellShared acc kv).2 = insert (alphaUpperOf v) acc.2 := by
  simp only [addHeaderedCellShared]
  repeat' split
  all_goals first
    | exact Or.inl rfl
    | exact Or.inr ⟨pyStrip kv.2, by assumption, rfl⟩

theorem addHeaderedCellFacts_fst (acc : Finset String × Finset String)
    (kv : String × String) :
    (addHeaderedCellFacts acc kv).1 = acc.1 ∨
    ∃ v : String, digitsOf v ≠ "" ∧
      (addHeaderedCellFacts acc kv).1 = insert (pyZfill 2 (digitsOf v)) acc.1 := by
  simp only [addHeaderedCellFacts]
  repeat' split
  all_goals first
    | exact Or.inl rfl
    | exact Or.inr ⟨pyStrip kv.2, by assumption, rfl⟩

theorem addHeaderedCellFacts_snd (acc : Finset String × Finset String)
    (kv : String × String) :
    (addHeaderedCellFacts acc kv).2 = acc.2 ∨
    ∃ v : String, (alphaUpperOf v).length = 2 ∧
      (addHeaderedCellFacts acc kv).2 = insert (alphaUpperOf v) acc.2 := by
  simp only [addHeaderedCellFacts]
  repeat' split
  all_goals first
    | exact Or.inl rfl
    | exact Or.inr ⟨pyStrip kv.2, by assumption, rfl⟩

theorem parseStateToken_props (raw : String) :
    ((parseStateToken raw).1 = "" ∨
      (2 ≤ (parseStateToken raw).1.length ∧
        (parseStateToken raw).1.data.all pyIsDigit = true)) ∧
    ((parseStateToken raw).2 = "" ∨
      ((parseStateToken raw).2.length = 2 ∧
        (parseStateToken raw).2.data.all pyIsUpper = true)) := by
  simp only [parseStateToken]
  repeat' split
  · exact ⟨Or.inl rfl, Or.inl rfl⟩
  · next hlen =>
    refine ⟨Or.inr ?_, Or.inl rfl⟩
    have hne : digitsOf (pyStrip raw) ≠ "" := by
      intro heq
      rw [heq] at hlen
      simp [String.length] at hlen
    exact pyZfill_two_digits (digitsOf (pyStrip raw)) (digitsOf_all_digits _) hne
  · next hlen =>
    exact ⟨Or.inl rfl, Or.inr ⟨hlen, alphaUpperOf_all_upper _⟩⟩
  · exact ⟨Or.inl rfl, Or.inl rfl⟩

theorem addPlainCellFacts_fst (acc : Finset String × Finset String) (raw : String) :
    (addPlainCellFacts acc raw).1 = acc.1 ∨
    ((parseStateToken raw).1 ≠ "" ∧
      (addPlainCellFacts acc raw).1 = insert (parseStateToken raw).1 acc.1) := by
  simp only [addPlainCellFacts]
  repeat' split
  all_goals first
    | exact Or.inl rfl
    | exact Or.inr ⟨by assumption, rfl⟩

theorem addPlainCellFacts_snd (acc : Finset String × Finset String) (raw : String) :
    (addPlainCellFacts acc raw).2 = acc.2 ∨
    ((parseStateToken raw).2 ≠ "" ∧
      (addPlainCellFacts acc raw).2 = insert (parseStateToken raw).2 acc.2) := by
  simp only [addPlainCellFacts]
  repeat' split
  all_goals first
    | exact Or.inl rfl
    | exact Or.inr ⟨by assumption, rfl⟩

/-- C4 (counterexample): the header-based readers accept FIPS tokens with
more than two digits without truncation, and the shared reader accepts
alpha runs of any non-empty length as abbreviations, so the claimed
"exactly 2-character" invariants fail on valid inputs. -/
theorem claimC4_counterexample :
    readStateCodesShared true [[("statefp", "123"), ("state", "Cal")]] =
      .ok ({"123"}, {"CAL"}) ∧
    readStateCodesFacts (.headered [[("statefp", "123")]]) = .ok ({"123"}, ∅) ∧
    ¬ (("123" : String).length = 2) ∧ ¬ (("CAL" : String).length = 2) := by
  refine ⟨by with_unfolding_all decide, by with_unfolding_all decide, by decide, by decide⟩

/-- C4 (amended): For every valid region-codes input, every element of the
FIPS set returned by either reader is an all-digit string of length at
least 2 (zero-padded to exactly 2 when the source token had at most 2
digits, kept whole when longer); every element of the abbreviation set is
an all-uppercase-letter string — of exactly 2 letters for the facts
reader, and of any non-empty length for the lenient shared header
reader. -/
theorem claimC4_amended :
    (∀ (hdr : Bool) (rows : List (List (String × String))) (fips abbr : Finset String),
       readStateCodesShared hdr rows = .ok (fips, abbr) →
       (∀ s ∈ fips, 2 ≤ s.length ∧ s.data.all pyIsDigit = true) ∧
       (∀ a ∈ abbr, a ≠ "" ∧ a.data.all pyIsUpper = true)) ∧
    (∀ (states : StatesCsv) (fips abbr : Finset String),
       readStateCodesFacts states = .ok (fips, abbr) →
       (∀ s ∈ fips, 2 ≤ s.length ∧ s.data.all pyIsDigit = true) ∧
       (∀ a ∈ abbr, a.length = 2 ∧ a.data.all pyIsUpper = true)) := by
  constructor
  · intro hdr rows fips abbr h
    unfold readStateCodesShared at h
    split at h
    · exact Except.noConfusion h
    · split at h
      · exact Except.noConfusion h
      · injection h with h2
        have hstep : ∀ acc kv,
            ((∀ s ∈ acc.1, 2 ≤ s.length ∧ s.data.all pyIsDigit = true) ∧
              (∀ a ∈ acc.2, a ≠ "" ∧ a.data.all pyIsUpper = true)) →
            ((∀ s ∈ (addHeaderedCellShared acc kv).1,
                2 ≤ s.length ∧ s.data.all pyIsDigit = true) ∧
              (∀ a ∈ (addHeaderedCellShared acc kv).2,
                a ≠ "" ∧ a.data.all pyIsUpper = true)) := by
          intro acc kv hp
          constructor
          · rcases addHeaderedCellShared_fst acc kv with he | ⟨v, hv, he⟩
            · rw [he]; exact hp.1
            · rw [he]
              intro s hs
              rcases Finset.mem_insert.mp hs with heq | hs
              · rw [heq]
                exact pyZfill_two_digits _ (digitsOf_all_digits v) hv
              · exact hp.1 s hs
          · rcases addHeaderedCellShared_snd acc kv with he | ⟨v, hv, he⟩
            · rw [he]; exact hp.2
            · rw [he]
              intro a ha
              rcases Finset.mem_insert.mp ha with heq | ha
              · rw [heq]
                exact ⟨hv, alphaUpperOf_all_upper v⟩
              · exact hp.2 a ha
        have hP := foldl_rows_inv addHeaderedCellShared hstep rows (∅, ∅)
          ⟨by simp, by simp⟩
        have hP2 : (∀ s ∈ (stateCodesAccShared rows).1,
              2 ≤ s.length ∧ s.data.all pyIsDigit = true) ∧
            (∀ a ∈ (stateCodesAccShared rows).2,
              a ≠ "" ∧ a.data.all pyIsUpper = true) := hP
        rw [h2] at hP2
        exact hP2
  · intro states fips abbr h
    unfold readStateCodesFacts at h
    split at h
    · exact Except.noConfusion h
    · injection h with h2
      have hP2 : (∀ s ∈ (stateCodesAccFacts states).1,
            2 ≤ s.length ∧ s.data.all pyIsDigit = true) ∧
          (∀ a ∈ (stateCodesAccFacts states).2,
            a.length = 2 ∧ a.data.all pyIsUpper = true) := by
        unfold stateCodesAccFacts
        split
        · -- headered branch
          apply @foldl_rows_inv _ _
            (fun acc => (∀ s ∈ acc.1, 2 ≤ s.length ∧ s.data.all pyIsDigit = true) ∧
              (∀ a ∈ acc.2, a.length = 2 ∧ a.data.all pyIsUpper = true))
            addHeaderedCellFacts ?_ _ (∅, ∅) ⟨by simp, by simp⟩
          intro acc kv hp
          constructor
          · rcases addHeaderedCellFacts_fst acc kv with he | ⟨v, hv, he⟩
            · rw [he]; exact hp.1
            · rw [he]
              intro s hs
              rcases Finset.mem_insert.mp hs with heq | hs
              · rw [heq]
                exact pyZfill_two_digits _ (digitsOf_all_digits v) hv
              · exact hp.1 s hs
          · rcases addHeaderedCellFacts_snd acc kv with he | ⟨v, hv, he⟩
            · rw [he]; exact hp.2
            · rw [he]
              intro a ha
              rcases Finset.mem_insert.mp ha with heq | ha
              · rw [heq]
                exact ⟨hv, alphaUpperOf_all_upper v⟩
              · exact hp.2 a ha
        · -- plain branch
          apply @foldl_rows_inv _ _
            (fun acc => (∀ s ∈ acc.1, 2 ≤ s.length ∧ s.data.all pyIsDigit = true) ∧
              (∀ a ∈ acc.2, a.length = 2 ∧ a.data.all pyIsUpper = true))
            addPlainCellFacts ?_ _ (∅, ∅) ⟨by simp, by simp⟩
          intro acc raw hp
          constructor
          · rcases addPlainCellFacts_fst acc raw with he | ⟨hv, he⟩
            · rw [he]; exact hp.1
            · rw [he]
              intro s hs
              rcases Finset.mem_insert.mp hs with heq | hs
              · rw [heq]
                rcases (parseStateToken_props raw).1 with hz | hz
                · exact absurd hz hv
                · exact hz
              · exact hp.1 s hs
          · rcases addPlainCellFacts_snd acc raw with he | ⟨hv, he⟩
            · rw [he]; exact hp.2
            · rw [he]
              intro a ha
              rcases Finset.mem_insert.mp ha with heq | ha
              · rw [heq]
                rcases (parseStateToken_props raw).2 with hz | hz
                · exact absurd hz hv
                · exact hz
              · exact hp.2 a ha
      rw [h2] at hP2
      exact hP2

theorem claimC4_amended_witness :
    ((2 ≤ ("123" : String).length ∧ ("123" : String).data.all pyIsDigit = true) ∧
      (("CAL" : String) ≠ "" ∧ ("CAL" : String).data.all pyIsUpper = true)) ∧
    (("CA" : String).length = 2 ∧ ("CA" : String).data.all pyIsUpper = true) := by
  constructor
  · have h := claimC4_amended.1 true [[("statefp", "123"), ("state", "Cal")]]
      {"123"} {"CAL"} (by with_unfolding_all decide)
    exact ⟨h.1 "123" (by decide), h.2 "CAL" (by decide)⟩
  · have h := claimC4_amended.2 (.plain [["ca"]]) ∅ {"CA"}
      (by with_unfolding_all decide)
    exact h.2 "CA" (by decide)

/-- C6 (counterexample): a metadata row with a non-empty relative path,
well-formed bounds and a non-empty CRS is nevertheless skipped when its
tile_id duplicates an earlier usable row's, so the filter conditions of
the claim do not characterize the skipped rows exactly. -/
theorem claimC6_counterexample :
    readRasterFootprints true
      [⟨"t/h01v01_b1.tif", "0,0,1,1", "EPSG:32611"⟩,
       ⟨"t/h01v01_b2.tif", "0,0,2,2", "EPSG:32611"⟩] =
      .ok [⟨"h01v01", some 1, some 1, "EPSG:32611", 0, 0, 1, 1⟩] ∧
    pyStrip "t/h01v01_b2.tif" ≠ "" ∧
    pyParseBounds "0,0,2,2" = some ⟨0, 0, 2, 2⟩ ∧
    pyStrip "EPSG:32611" ≠ "" ∧
    (∀ fp ∈ [(⟨"h01v01", some 1, some 1, "EPSG:32611", 0, 0, 1, 1⟩ : Footprint)],
      fp.maxx ≠ 2) := by
  refine ⟨by with_unfolding_all rfl, by with_unfolding_all decide,
    by with_unfolding_all decide, by with_unfolding_all decide,
    by with_unfolding_all decide⟩

theorem fpOfRow?_eq_none_iff (row : FactsRow) :
    fpOfRow? row = none ↔
      (pyStrip row.relative_path = "" ∨ pyParseBounds row.bounds = none ∨
       pyStrip row.crs = "" ∨ normalizeTileId (pyStrip row.relative_path) = "") := by
  simp only [fpOfRow?]
  repeat' split
  all_goals simp_all

/-- C6 (amended): the footprint reader keeps exactly one footprint per
normalized tile_id, taken from the first row that passes the usability
filter (non-empty relative path, well-formed bounds, non-empty CRS, and a
non-empty normalized tile identifier); all other rows — including fully
valid rows duplicating an earlier tile_id — are skipped, and the
invalid-input error is raised if and only if no row passes the usability
filter. -/
theorem claimC6_amended :
    (∀ (row : FactsRow),
       fpOfRow? row = none ↔
         (pyStrip row.relative_path = "" ∨ pyParseBounds row.bounds = none ∨
          pyStrip row.crs = "" ∨ normalizeTileId (pyStrip row.relative_path) = "")) ∧
    (∀ (rows : List FactsRow) (fps : List Footprint),
       readRasterFootprints true rows = .ok fps →
       fps = keepFirstsBy (fun fp => fp.tile_id) (rows.filterMap fpOfRow?)) ∧
    (∀ (rows : List FactsRow),
       readRasterFootprints true rows = .error .noFootprints ↔
         ∀ r ∈ rows, fpOfRow? r = none) ∧
    (∀ (rows : List FactsRow), readRasterFootprints false rows = .error .noHeader) := by
  refine ⟨fpOfRow?_eq_none_iff, ?_, ?_, ?_⟩
  · intro rows fps h
    exact (readRasterFootprints_ok rows fps h).1
  · intro rows
    unfold readRasterFootprints
    rw [if_neg (by simp)]
    have hfl : firstsLoop fpOfRow? (fun fp => fp.tile_id) rows [] =
        keepFirstsBy (fun fp => fp.tile_id) (rows.filterMap fpOfRow?) := by
      rw [firstsLoop_eq]
      simp
    rw [hfl]
    constructor
    · intro h
      split at h
      · next hnil =>
        rw [keepFirstsBy_ne_nil] at hnil
        exact List.filterMap_eq_nil_iff.mp hnil
      · exact Except.noConfusion h
    · intro hall
      rw [if_pos]
      rw [keepFirstsBy_ne_nil]
      exact List.filterMap_eq_nil_iff.mpr hall
  · intro rows
    rfl

theorem claimC6_witness :
    ([(⟨"h01v01", some 1, some 1, "EPSG:32611", 0, 0, 1, 1⟩ : Footprint)] =
      keepFirstsBy (fun fp => fp.tile_id)
        (([⟨"t/h01v01_b1.tif", "0,0,1,1", "EPSG:32611"⟩,
           ⟨"t/h01v01_b2.tif", "0,0,2,2", "EPSG:32611"⟩] : List FactsRow).filterMap
          fpOfRow?)) ∧
    (readRasterFootprints true [(⟨"", "0,0,1,1", "EPSG:32611"⟩ : FactsRow)] =
      .error .noFootprints) := by
  constructor
  · exact claimC6_amended.2.1
      [⟨"t/h01v01_b1.tif", "0,0,1,1", "EPSG:32611"⟩,
       ⟨"t/h01v01_b2.tif", "0,0,2,2", "EPSG:32611"⟩]
      [⟨"h01v01", some 1, some 1, "EPSG:32611", 0, 0, 1, 1⟩]
      (by with_unfolding_all rfl)
  · exact (claimC6_amended.2.2.1 [⟨"", "0,0,1,1", "EPSG:32611"⟩]).mpr
      (by
        intro r hr
        simp only [List.mem_singleton] at hr
        rw [hr]
        with_unfolding_all rfl)

/-- If the mask has an applicable branch but no row is selected, the
corresponding missing-codes list is non-empty. -/
theorem missing_nonempty_of_no_match {G : Type} (shp : StateShp G)
    (fips abbr : Finset String)
    (hmask : maskApplicable shp fips abbr = true)
    (hnosel : ∀ r ∈ shp.rows, rowSelected shp fips abbr r = false) :
    missingFipsOf shp fips ≠ [] ∨ missingAbbrOf shp abbr ≠ [] := by
  unfold maskApplicable at hmask
  rw [Bool.or_eq_true] at hmask
  rcases hmask with hA | hB
  · left
    rw [Bool.and_eq_true] at hA
    obtain ⟨hfp, hfne⟩ := hA
    have hfne' : fips ≠ ∅ := of_decide_eq_true hfne
    unfold missingFipsOf
    rw [if_pos ⟨hfp, hfne'⟩]
    obtain ⟨f, hf⟩ := Finset.nonempty_iff_ne_empty.mpr hfne'
    have hfk : f ∉ knownFipsOf shp := by
      intro hk
      unfold knownFipsOf at hk
      rw [List.mem_toFinset] at hk
      obtain ⟨r, hr, hzf⟩ := List.mem_map.mp hk
      have hsel := hnosel r hr
      unfold rowSelected at hsel
      simp [hfp, hzf, hf, hfne'] at hsel
    have hmem : f ∈ sortedStrings (fips \ knownFipsOf shp) := by
      unfold sortedStrings
      rw [Finset.mem_sort]
      exact Finset.mem_sdiff.mpr ⟨hf, hfk⟩
    exact List.ne_nil_of_mem hmem
  · right
    rw [Bool.and_eq_true] at hB
    obtain ⟨hus, hane⟩ := hB
    have hane' : abbr ≠ ∅ := of_decide_eq_true hane
    unfold missingAbbrOf
    rw [if_pos ⟨hus, hane'⟩]
    obtain ⟨a, ha⟩ := Finset.nonempty_iff_ne_empty.mpr hane'
    have hak : a ∉ knownAbbrOf shp := by
      intro hk
      unfold knownAbbrOf at hk
      rw [List.mem_toFinset] at hk
      obtain ⟨r, hr, hup⟩ := List.mem_map.mp hk
      have hsel := hnosel r hr
      unfold rowSelected at hsel
      simp [hus, hup, ha, hane'] at hsel
    have hmem : a ∈ sortedStrings (abbr \ knownAbbrOf shp) := by
      unfold sortedStrings
      rw [Finset.mem_sort]
      exact Finset.mem_sdiff.mpr ⟨ha, hak⟩
    exact List.ne_nil_of_mem hmem

/-- C7 (counterexample): with requested codes matching no region, the
facts-derived resolver does not fail with the no-match raise of its mask
step (`"no states matched states.of.interest.csv"`); it fails earlier
with the requested-states-not-found error. -/
theorem claimC7_counterexample :
    buildToiFromFacts rectEngine (.plain [["99"]]) true
      [⟨"t/h01v01_b1.tif", "0,0,1,1", "EPSG:32611"⟩]
      { hasStatefp := true, hasStusps := true, crs := some "EPSG:4326",
        rows := [⟨"6", "CA", ⟨0, 0, 10, 10⟩⟩] } 1 =
      .error (.statesNotFound ["99"] []) ∧
    BuildError.statesNotFound ["99"] [] ≠ BuildError.noMatch := by
  exact ⟨by with_unfolding_all decide, by decide⟩

/-- C7 (amended): when the requested codes match no region in the boundary
source, both resolvers fail and neither creates or writes the output file
(in this embedding a `.ok` result is the only outcome that writes):
the analytical builder raises the no-match error, while the facts builder
raises the requested-states-not-found error listing the unmatched codes.
In both builders the output stage is reached only when the accumulated
unioned spatial join is non-empty. -/
theorem claimC7_amended :
    (∀ {G : Type} (e : GeomEngine G) (chdr : Bool)
       (crows : List (List (String × String))) (shp : StateShp G)
       (fips abbr : Finset String),
       readStateCodesShared chdr crows = .ok (fips, abbr) →
       shp.rows ≠ [] → (shp.hasStatefp ∨ shp.hasStusps) →
       maskApplicable shp fips abbr = true →
       (∀ r ∈ shp.rows, rowSelected shp fips abbr r = false) →
       buildToiShared e chdr crows shp = .error .noMatch) ∧
    (∀ {G : Type} (e : GeomEngine G) (states : StatesCsv) (hdr : Bool)
       (frows : List FactsRow) (shp : StateShp G) (tol : ℚ)
       (fips abbr : Finset String) (fps : List Footprint),
       readStateCodesFacts states = .ok (fips, abbr) →
       readRasterFootprints hdr frows = .ok fps →
       shp.rows ≠ [] → (shp.hasStatefp ∨ shp.hasStusps) →
       maskApplicable shp fips abbr = true →
       (∀ r ∈ shp.rows, rowSelected shp fips abbr r = false) →
       buildToiFromFacts e states hdr frows shp tol =
         .error (.statesNotFound (missingFipsOf shp fips) (missingAbbrOf shp abbr)) ∧
       (missingFipsOf shp fips ≠ [] ∨ missingAbbrOf shp abbr ≠ [])) ∧
    (∀ {G : Type} (e : GeomEngine G) (states : StatesCsv) (hdr : Bool)
       (frows : List FactsRow) (shp : StateShp G) (tol : ℚ) (out : List OutRow),
       buildToiFromFacts e states hdr frows shp tol = .ok out →
       ∃ fips abbr fps srcCrs,
         readStateCodesFacts states = .ok (fips, abbr) ∧
         readRasterFootprints hdr frows = .ok fps ∧
         shp.crs = some srcCrs ∧
         unionJoinedFacts e fips abbr shp srcCrs fps tol ≠ []) ∧
    (∀ {G : Type} (e : GeomEngine G) (chdr : Bool)
       (crows : List (List (String × String))) (shp : StateShp G) (out : List OutRow),
       buildToiShared e chdr crows shp = .ok out →
       ∃ fips abbr srcCrs,
         readStateCodesShared chdr crows = .ok (fips, abbr) ∧
         shp.crs = some srcCrs ∧
         unionJoinedShared e fips abbr shp srcCrs ≠ []) := by
  refine ⟨?_, ?_, ?_, ?_⟩
  · intro G e chdr crows shp fips abbr hcodes hrows hcols hmask hnosel
    have hrows' : shp.rows.isEmpty = false := by
      cases hsr : shp.rows with
      | nil => exact absurd hsr hrows
      | cons a l => rfl
    have hfilter : (shp.rows.filter (rowSelected shp fips abbr)).isEmpty = true := by
      rw [List.isEmpty_iff, List.filter_eq_nil_iff]
      intro a ha
      rw [hnosel a ha]
      simp
    unfold buildToiShared
    rw [hcodes]
    simp only [hrows', Bool.false_eq_true, if_false, if_neg (not_not_intro hcols),
      if_neg (not_not_intro hmask), if_pos hfilter]
  · intro G e states hdr frows shp tol fips abbr fps hcodes hfps hrows hcols hmask hnosel
    have hmiss := missing_nonempty_of_no_match shp fips abbr hmask hnosel
    exact ⟨buildToiFromFacts_missing e states hdr frows shp tol fips abbr fps
      hcodes hfps hrows hcols hmiss, hmiss⟩
  · intro G e states hdr frows shp tol out h
    obtain ⟨fips, abbr, fps, srcCrs, h1, h2, h3, h4, _⟩ :=
      buildToiFromFacts_ok e states hdr frows shp tol out h
    exact ⟨fips, abbr, fps, srcCrs, h1, h2, h3, h4⟩
  · intro G e chdr crows shp out h
    obtain ⟨fips, abbr, srcCrs, h1, h2, h3, _⟩ := buildToiShared_ok e chdr crows shp out h
    exact ⟨fips, abbr, srcCrs, h1, h2, h3⟩

theorem claimC7_witness :
    buildToiShared rectEngine true [[("statefp", "99")]]
      { hasStatefp := true, hasStusps := true, crs := some "EPSG:4326",
        rows := [⟨"6", "CA", ⟨0, 0, 10, 10⟩⟩] } = .error .noMatch ∧
    (buildToiFromFacts rectEngine (.plain [["99"]]) true
      [⟨"t/h01v01_b1.tif", "0,0,1,1", "EPSG:32611"⟩]
      { hasStatefp := true, hasStusps := true, crs := some "EPSG:4326",
        rows := [⟨"6", "CA", ⟨0, 0, 10, 10⟩⟩] } 1 =
      .error (.statesNotFound
        (missingFipsOf
          { hasStatefp := true, hasStusps := true, crs := some "EPSG:4326",
            rows := [(⟨"6", "CA", ⟨0, 0, 10, 10⟩⟩ : StateRow Rect)] } ({"99"} : Finset String))
        (missingAbbrOf
          { hasStatefp := true, hasStusps := true, crs := some "EPSG:4326",
            rows := [(⟨"6", "CA", ⟨0, 0, 10, 10⟩⟩ : StateRow Rect)] } (∅ : Finset String)))) := by
  constructor
  · exact claimC7_amended.1 rectEngine true [[("statefp", "99")]]
      { hasStatefp := true, hasStusps := true, crs := some "EPSG:4326",
        rows := [⟨"6", "CA", ⟨0, 0, 10, 10⟩⟩] }
      {"99"} ∅
      (by with_unfolding_all decide) (by simp) (Or.inl rfl)
      (by with_unfolding_all decide)
      (by
        intro r hr
        simp only [List.mem_singleton] at hr
        rw [hr]
        with_unfolding_all decide)
  · exact (claimC7_amended.2.1 rectEngine (.plain [["99"]]) true
      [⟨"t/h01v01_b1.tif", "0,0,1,1", "EPSG:32611"⟩]
      { hasStatefp := true, hasStusps := true, crs := some "EPSG:4326",
        rows := [⟨"6", "CA", ⟨0, 0, 10, 10⟩⟩] } 1
      {"99"} ∅ [⟨"h01v01", some 1, some 1, "EPSG:32611", 0, 0, 1, 1⟩]
      (by with_unfolding_all decide) (by with_unfolding_all rfl) (by simp) (Or.inl rfl)
      (by with_unfolding_all decide)
      (by
        intro r hr
        simp only [List.mem_singleton] at hr
        rw [hr]
        with_unfolding_all decide)).1

set_option maxRecDepth 1000000 in
/-- C8 (counterexample): the captured stderr is `.strip()`-ed before being
embedded in the error message, so whitespace-framed stderr is not carried
verbatim: the verbatim text (even truncated to 2000 characters) does not
occur in the message. -/
theorem claimC8_counterexample :
    buildVectorTilesWithTippecanoe true "in.ndjson" "out.mbtiles" "fields" 8 14 "tippecanoe"
      (some "/usr/bin/tippecanoe") true true true true ⟨1, "", " boom\n"⟩ 0 =
      .error ("tippecanoe failed rc=1 cmd=/usr/bin/tippecanoe -o out.mbtiles -l fields -Z 8 -z 14 --force --no-feature-limit --no-tile-size-limit --read-parallel --detect-shared-borders --coalesce-densest-as-needed --drop-densest-as-needed in.ndjson stderr=boom") ∧
    pyTruncate 2000 (" boom\n") = " boom\n" ∧
    ¬ ((" boom\n").data <:+:
      ("tippecanoe failed rc=1 cmd=/usr/bin/tippecanoe -o out.mbtiles -l fields -Z 8 -z 14 --force --no-feature-limit --no-tile-size-limit --read-parallel --detect-shared-borders --coalesce-densest-as-needed --drop-densest-as-needed in.ndjson stderr=boom").data) := by
  refine ⟨by with_unfolding_all rfl, by with_unfolding_all rfl, by decide⟩

/-- C8 (amended): on a non-zero tippecanoe exit status the builder fails
with an error whose message ends with the captured stderr stripped of
surrounding whitespace and truncated to at most 2000 characters. -/
theorem claimC8_amended :
    ∀ (inputPath outPath layer : String) (minZ maxZ : Int) (bin exe : String)
      (ds cd dd rp : Bool) (proc : ProcResult) (sz : Nat),
      pyStrip layer ≠ "" → proc.returncode ≠ 0 →
      ∃ msg,
        buildVectorTilesWithTippecanoe true inputPath outPath layer minZ maxZ bin
          (some exe) ds cd dd rp proc sz = .error msg ∧
        (pyTruncate 2000 (pyStrip proc.stderr)).data <:+ msg.data ∧
        (pyTruncate 2000 (pyStrip proc.stderr)).length ≤ 2000 := by
  intro inputPath outPath layer minZ maxZ bin exe ds cd dd rp proc sz hlayer hrc
  refine ⟨"tippecanoe failed rc=" ++ toString proc.returncode ++ " cmd=" ++
    shlexJoin (tippecanoeCmd exe outPath layer minZ maxZ rp ds cd dd inputPath) ++
    " stderr=" ++ pyTruncate 2000 (pyStrip proc.stderr), ?_, ?_, ?_⟩
  · unfold buildVectorTilesWithTippecanoe
    rw [if_neg (by simp), if_neg hlayer]
    simp only []
    rw [if_pos hrc]
  · exact ⟨("tippecanoe failed rc=" ++ toString proc.returncode ++ " cmd=" ++
      shlexJoin (tippecanoeCmd exe outPath layer minZ maxZ rp ds cd dd inputPath) ++
      " stderr=").data, (String.data_append _ _).symm⟩
  · unfold pyTruncate
    have h1 : (⟨(pyStrip proc.stderr).data.take 2000⟩ : String).length =
        ((pyStrip proc.stderr).data.take 2000).length := rfl
    rw [h1, List.length_take]
    exact min_le_left _ _

theorem claimC8_amended_witness :
    ∃ msg,
      buildVectorTilesWithTippecanoe true "in.ndjson" "out.mbtiles" "fields" 8 14
        "tippecanoe" (some "/usr/bin/tippecanoe") true true true true
        ⟨1, "", " boom\n"⟩ 0 = .error msg ∧
      (pyTruncate 2000 (pyStrip " boom\n")).data <:+ msg.data ∧
      (pyTruncate 2000 (pyStrip " boom\n")).length ≤ 2000 := by
  exact claimC8_amended "in.ndjson" "out.mbtiles" "fields" 8 14 "tippecanoe"
    "/usr/bin/tippecanoe" true true true true ⟨1, "", " boom\n"⟩ 0
    (by with_unfolding_all decide) (by decide)
